import Mathlib

set_option maxRecDepth 100000

/-!
Verification of the SmartBI deterministic semantic query pipeline
(token matcher, plan builder, plan validator, SQL compiler).

The definitions below are a shallow embedding of the Python modules
`app/token_matcher.py`, `app/sql_planner.py`, `app/semantic_validator.py`,
`app/sql_compiler.py` and the Step-F gating fragment of `app/main.py`.

Modelling conventions:
* Python `dict`s that act as records become structures whose fields mirror
  the dictionary keys (`from` becomes `fromClause` since `from` is a Lean
  keyword; the YAML boolean key `True` inside a join dict becomes `onTrue`).
* Python `dict`s that act as maps keyed by strings become insertion-ordered
  association lists (`List (String × _)`); `d[k] = v` is `dictSet` (update in
  place, append when fresh — matching CPython's ordered-dict semantics) and
  `d.get(k)` is `dictGet` (first matching key).
* Python `str.strip()/.lower()` become the list-based `pyTrim`/`pyLower`
  (kernel-reducible, unlike `(pyTrim String)`); the regex
  class `\d` becomes `Char.isDigit` and `\s` becomes `Char.isWhitespace`
  (the extra Unicode code points Python includes never matter for the
  claims checked here and are not modelled).
* Scalar values flowing through filter dictionaries become `PyScalar`;
  a Python float is carried as its decimal literal normalized by
  `canonFloatLit` (17-significant-digit rounding of `repr(float)` is not
  modelled; no claim depends on float rendering).
* Feature/selection arrays are typed as `List String`: the sources guard
  every element with `isinstance(v, str)` and silently skip anything else,
  so non-string members are unobservable and are not modelled.
-/

/-- A single quote character, used to build SQL string literals. -/
def sqChar : Char := '\''

/-- A single-quote string, used to build SQL string literals. -/
def sQuote : String := String.singleton sqChar

/-- Scalar values appearing in filter dictionaries (Python `str`, `int`,
`float`, `bool`, `None`). A float is stored as its normalized decimal
literal. -/
inductive PyScalar where
  | s (v : String)
  | i (v : Int)
  | f (v : String)
  | b (v : Bool)
  | none
deriving DecidableEq, Repr

/-- A filter `value` entry: a scalar or a list of scalars. -/
inductive PyVal where
  | scalar (v : PyScalar)
  | list (vs : List PyScalar)
deriving DecidableEq, Repr

/-- Python truthiness of a scalar; for floats the literal is zero iff its
digits are all `0`. -/
def pyScalarTruthy : PyScalar → Bool
  | .s v => v ≠ ""
  | .i v => v ≠ 0
  | .f v => ¬ (v.toList.all fun c => c = '0' ∨ c = '.' ∨ c = '-' ∨ c = '+')
  | .b v => v
  | .none => false

/-- Python `str()` of a scalar. -/
def pyScalarStr : PyScalar → String
  | .s v => v
  | .i v => toString v
  | .f v => v
  | .b v => if v then "True" else "False"
  | .none => "None"

/-- Python `repr()` of a scalar, as used when a list value is stringified
(string reprs keep their quotes; escaping inside is not modelled). -/
def pyScalarRepr : PyScalar → String
  | .s v => sQuote ++ v ++ sQuote
  | other => pyScalarStr other

/-- Python `str()` of a filter value. -/
def pyValStr : PyVal → String
  | .scalar v => pyScalarStr v
  | .list vs => "[" ++ String.intercalate ", " (vs.map pyScalarRepr) ++ "]"

/-- Python truthiness of a filter value. -/
def pyValTruthy : PyVal → Bool
  | .scalar v => pyScalarTruthy v
  | .list vs => vs ≠ []

/-- `needle` occurs as a contiguous substring of `hay` (Python `in`). -/
def strHasSub (hay needle : String) : Bool :=
  (List.range (hay.toList.length + 1)).any fun i =>
    needle.toList.isPrefixOf (hay.toList.drop i)

/-- Python `str.strip()` (kernel-reducible list-based implementation;
Lean's `(pyTrim String)` does not reduce inside `decide`). -/
def pyTrim (s : String) : String :=
  ⟨((s.toList.dropWhile Char.isWhitespace).reverse.dropWhile Char.isWhitespace).reverse⟩

/-- Python `str.lower()` (ASCII case folding, kernel-reducible). -/
def pyLower (s : String) : String :=
  ⟨s.toList.map Char.toLower⟩

/-- Fuel-driven worker of `pyReplace` (the fuel starts at the text length,
which always suffices since every step consumes at least one character). -/
def replaceGo (pat rep : List Char) : Nat → List Char → List Char
  | 0, cs => cs
  | _ + 1, [] => []
  | fuel + 1, c :: rest =>
    if pat.isPrefixOf (c :: rest) then
      rep ++ replaceGo pat rep fuel ((c :: rest).drop pat.length)
    else c :: replaceGo pat rep fuel rest

/-- Python `str.replace(pat, rep)` for non-empty patterns (left-to-right,
non-overlapping; all patterns in the sources are non-empty). -/
def pyReplace (s pat rep : String) : String :=
  if pat.toList.isEmpty then s else ⟨replaceGo pat.toList rep.toList s.toList.length s.toList⟩

/-- Python slice `s[:n]` by code points (kernel-reducible). -/
def strTake (s : String) (n : Nat) : String :=
  ⟨s.toList.take n⟩

/-- Python `str.split(sep)` for a one-character separator. -/
def splitOnChar : List Char → Char → List (List Char)
  | [], _ => [[]]
  | c :: rest, sep =>
    let r := splitOnChar rest sep
    if c = sep then [] :: r
    else
      match r with
      | [] => [[c]]
      | h :: t => (c :: h) :: t

/-- First index (if any) at which `needle` occurs in `hay` (character
index, used to model Python `str.split(op, 1)`). -/
def firstSubIdx (hay needle : List Char) : Option Nat :=
  (List.range (hay.length + 1)).find? fun i => needle.isPrefixOf (hay.drop i)

/-- Python `value.zfill 2` for month strings. -/
def zfill2 (v : String) : String :=
  if v.length ≥ 2 then v else "".pushn '0' (2 - v.length) ++ v

/-- Digit list to natural number (the lists fed to it always come from
`Char.isDigit` scans). -/
def digitsToNat (cs : List Char) : Nat :=
  cs.foldl (fun acc c => acc * 10 + (c.toNat - '0'.toNat)) 0

/-- Ordered-dict read: value of the first matching key. -/
def dictGet (d : List (String × String)) (k : String) : Option String :=
  (d.find? fun kv => kv.1 = k).map fun kv => kv.2

/-- Ordered-dict write: update in place, append when the key is fresh
(CPython `d[k] = v`). -/
def dictSet (d : List (String × String)) (k v : String) : List (String × String) :=
  if d.any fun kv => kv.1 = k then
    d.map fun kv => if kv.1 = k then (k, v) else kv
  else
    d ++ [(k, v)]

/-- `_unique_keep_order` from `app/sql_planner.py` (the source's `seen` set
always equals the set of elements of `out`, so membership in the
accumulator is the same test). -/
def uniqueKeepOrder (values : List String) : List String :=
  values.foldl (fun out v => if v ∈ out then out else out ++ [v]) []

/-- A semantic-layer metric / dimension / time-dimension / entity-field
definition (one YAML mapping). Missing keys default to the values the
Python `dict.get` defaults produce. `aggType` mirrors the `type` key,
`allowed` the `allowed` key of sensitive fields. -/
structure FieldDef where
  name : String := ""
  expr : String := ""
  synonyms : List String := []
  grain : String := ""
  aggType : String := ""
  allowed : Bool := false
deriving DecidableEq, Repr

/-- A join declaration of a dataset. `onTrue` models the value stored
under the YAML-1.1 boolean key `True` when the `on` key was parsed as a
boolean. -/
structure JoinDef where
  entity : Option String := Option.none
  onKey : Option String := Option.none
  onTrue : Option String := Option.none
deriving DecidableEq, Repr

/-- A dataset of the semantic layer (`fromClause` mirrors the `from` key). -/
structure DatasetDef where
  fromClause : String := ""
  metrics : List FieldDef := []
  dimensions : List FieldDef := []
  time_dimensions : List FieldDef := []
  joins : List JoinDef := []
deriving DecidableEq, Repr

/-- An entity of the semantic layer. -/
structure EntityDef where
  table : String := ""
  fields : List FieldDef := []
  sensitive_fields : List FieldDef := []
deriving DecidableEq, Repr

/-- The semantic layer: insertion-ordered maps of datasets and entities. -/
structure SemanticLayer where
  datasets : List (String × DatasetDef) := []
  entities : List (String × EntityDef) := []
deriving DecidableEq, Repr

/-- `semantic_layer.get("datasets", {}).get(name, {}) or {}`. -/
def layerDataset (sl : SemanticLayer) (name : String) : DatasetDef :=
  ((sl.datasets.find? fun p => p.1 = name).map fun p => p.2).getD {}

/-- `semantic_layer.get("entities", {}).get(name, {}) or {}`. -/
def layerEntity (sl : SemanticLayer) (name : String) : EntityDef :=
  ((sl.entities.find? fun p => p.1 = name).map fun p => p.2).getD {}

/-- `name in semantic_layer.get("entities", {})`. -/
def layerHasEntity (sl : SemanticLayer) (name : String) : Bool :=
  sl.entities.any fun p => p.1 = name

/-- `name in semantic_layer.get("datasets", {})`. -/
def layerHasDataset (sl : SemanticLayer) (name : String) : Bool :=
  sl.datasets.any fun p => p.1 = name

/-- A `CandidateMatch` payload dictionary as produced by the token matcher
and consumed by the plan builder (`allowed` is `Option Bool` because the
planner tests `m.get("allowed") is not False`, where a missing key counts
as allowed; the optional `score` key is never read downstream and is not
modelled). -/
structure MatchDict where
  object_type : String := ""
  canonical_name : String := ""
  dataset : String := ""
  entity : String := ""
  table : String := ""
  allowed : Option Bool := Option.none
  source : String := ""
deriving DecidableEq, Repr

/-- `token_hits`: the result dictionary of `SemanticTokenMatcher.match`
(`matchList` mirrors the `matches` key; `matches` is a Lean keyword). -/
structure TokenHits where
  matchList : List MatchDict := []
  blocked_matches : List MatchDict := []
deriving DecidableEq, Repr

/-- A filter dictionary. All keys are optional, mirroring `dict.get`
(values of types other than the ones below would be skipped or
stringified by the sources; they never arise and are not modelled). -/
structure PyFilter where
  field : Option String := Option.none
  op : Option String := Option.none
  value : Option PyVal := Option.none
  expr : Option String := Option.none
  source : Option String := Option.none
deriving DecidableEq, Repr

/-- An element of a `selected_filters` list: a filter dictionary, or any
non-dict value (the validator flags those, the compiler and the sanitizer
skip them). -/
inductive PlanFilter where
  | dict (f : PyFilter)
  | nonDict (v : PyVal)
deriving DecidableEq, Repr

/-- The `time_axis` sub-dictionary read by the validator. -/
structure TimeAxis where
  has_time_filter : Bool := false
  start_date : String := ""
  end_date : String := ""
deriving DecidableEq, Repr

/-- A rejected-candidate entry of a plan. -/
structure RejectedCandidate where
  canonical_name : String := ""
  reason : String := ""
deriving DecidableEq, Repr

/-- A semantic query plan (the `enhanced_plan` dictionary). -/
structure Plan where
  selected_metrics : List String := []
  selected_dimensions : List String := []
  selected_filters : List PlanFilter := []
  selected_dataset_candidates : List String := []
  rejected_candidates : List RejectedCandidate := []
  needs_clarification : Bool := false
  clarification_questions : List String := []
  time_axis : TimeAxis := {}
deriving DecidableEq, Repr

/-- Step-B extracted features (string arrays only; see the typing note at
the top of the file). -/
structure Features where
  tokens : List String := []
  metrics : List String := []
  dimensions : List String := []
  filters : List String := []
  time_start : String := ""
  time_end : String := ""
  query_text : String := ""
deriving DecidableEq, Repr

/-- The untrusted LLM selection consumed by the plan builder. -/
structure LlmSelection where
  selected_metrics : List String := []
  selected_dimensions : List String := []
  selected_dataset_candidates : List String := []
  selected_filters : List PlanFilter := []
deriving DecidableEq, Repr

/-- Governance limits (only `require_time_filter` is read by the
validator). -/
structure Governance where
  require_time_filter : Bool := false
deriving DecidableEq, Repr

/-- The validator's result dictionary. -/
structure ValidationResult where
  ok : Bool
  errors : List String
  error_codes : List String
deriving DecidableEq, Repr

/-- `_normalize_key` from `app/sql_planner.py`. -/
def normalizeKey (value : String) : String :=
  pyLower (pyTrim value)

/-- `_normalize_phrase` from `app/sql_planner.py`: drop spaces and the
aggregate suffix words. -/
def normalizePhrase (value : String) : String :=
  let text := pyReplace (normalizeKey value) " " ""
  pyReplace (pyReplace (pyReplace (pyReplace text "總額" "") "總和" "") "合計" "") "總計" ""

/-- `_canonical_candidates` from `app/sql_planner.py`. -/
def canonicalCandidates (ms : List MatchDict) (object_type : String) : List String :=
  uniqueKeepOrder <| ms.filterMap fun m =>
    if m.object_type = object_type ∧ m.allowed ≠ some false ∧ m.canonical_name ≠ "" then
      some m.canonical_name
    else Option.none

/-- `_dimension_candidates` from `app/sql_planner.py`. -/
def dimensionCandidates (ms : List MatchDict) : List String :=
  uniqueKeepOrder <| ms.filterMap fun m =>
    if (m.object_type = "dimension" ∨ m.object_type = "field") ∧
        m.allowed ≠ some false ∧ m.canonical_name ≠ "" then
      some m.canonical_name
    else Option.none

/-- `_dataset_candidates` from `app/sql_planner.py`. -/
def datasetCandidates (ms : List MatchDict) : List String :=
  uniqueKeepOrder <| ms.filterMap fun m =>
    if m.dataset ≠ "" then some m.dataset else Option.none

/-- `_safe_selected_values` from `app/sql_planner.py`: allow-list the
proposer's values against the candidate list, keeping candidate members
only, de-duplicated in order. -/
def safeSelectedValues (candidates : List String) (values : List String) : List String :=
  values.foldl
    (fun out value =>
      let normalized := (pyTrim value)
      if normalized = "" ∨ normalized ∉ candidates then out
      else if normalized ∈ out then out
      else out ++ [normalized])
    []

/-- The leading segment of `value.split(".", 1)`. -/
def beforeFirstDot (value : String) : String :=
  ⟨value.toList.takeWhile fun c => c ≠ '.'⟩

/-- `^-?\d+(\.\d+)?$` (`_NUMERIC_PATTERN` of `app/sql_planner.py`). -/
def numericShape (text : String) : Bool :=
  let cs := text.toList
  let cs := if cs.head? = some '-' then cs.drop 1 else cs
  let intPart := cs.takeWhile Char.isDigit
  let rest := cs.drop intPart.length
  intPart ≠ [] ∧ (rest = [] ∨ (rest.head? = some '.' ∧ rest.drop 1 ≠ [] ∧ (rest.drop 1).all Char.isDigit))

/-- Parse a (sign, digits) integer literal; callers guarantee the shape. -/
def intLit (text : String) : Int :=
  let cs := text.toList
  if cs.head? = some '-' then - (digitsToNat (cs.drop 1) : Int)
  else (digitsToNat cs : Int)

/-- Canonical decimal literal of a parsed Python float: leading zeros of
the integer part and trailing zeros of the fractional part dropped, as in
`str(float(text))` (rounding beyond 17 significant digits not modelled). -/
def canonFloatLit (text : String) : String :=
  let cs := text.toList
  let neg := cs.head? = some '-'
  let cs := if neg then cs.drop 1 else cs
  let intPart := cs.takeWhile Char.isDigit
  let fracPart := (cs.drop (intPart.length + 1))
  let intCanon := match intPart.dropWhile fun c => c = '0' with
    | [] => ['0']
    | keep => keep
  let fracCanon := match (fracPart.reverse.dropWhile fun c => c = '0').reverse with
    | [] => ['0']
    | keep => keep
  (if neg then "-" else "") ++ (⟨intCanon⟩ : String) ++ "." ++ (⟨fracCanon⟩ : String)

/-- `_parse_scalar_filter_value` from `app/sql_planner.py`. -/
def parseScalarFilterValue (raw_value : String) : PyScalar :=
  let value := (pyTrim raw_value)
  let cs := value.toList
  if cs.length ≥ 2 ∧ ((cs.head? = some sqChar ∧ cs.getLast? = some sqChar) ∨
      (cs.head? = some '"' ∧ cs.getLast? = some '"')) then
    .s ⟨(cs.drop 1).dropLast⟩
  else if numericShape value then
    if strHasSub value "." then .f (canonFloatLit value) else .i (intLit value)
  else .s value

/-- Case-insensitive literal keyword at the head of `cs`; returns the
remainder (models a `[bB][eE]...` character-class run in the source's
regexes, whose keywords are ASCII). -/
def ciKeywordDrop (cs : List Char) (kw : List Char) : Option (List Char) :=
  if kw.length ≤ cs.length ∧ (cs.take kw.length).map Char.toLower = kw then
    some (cs.drop kw.length)
  else Option.none

/-- `\s+`: drop at least one whitespace character. -/
def wsDrop1 (cs : List Char) : Option (List Char) :=
  let r := cs.dropWhile Char.isWhitespace
  if r.length < cs.length then some r else Option.none

/-- The tail `(?P<start>.+?)\s+[aA][nN][dD]\s+(?P<end>.+)$` of the
source's BETWEEN regex, with Python's leftmost-shortest choice of the
non-greedy group (`.` never matches a newline; `$` is end-of-input, which
is exact here because the parsed text is stripped first). -/
def betweenTail (cs : List Char) : Option (String × String) :=
  (List.range cs.length).findSome? fun k0 =>
    let start := cs.take (k0 + 1)
    if start.contains '\n' then Option.none else
    match wsDrop1 (cs.drop (k0 + 1)) with
    | Option.none => Option.none
    | some r1 =>
      match ciKeywordDrop r1 ['a', 'n', 'd'] with
      | Option.none => Option.none
      | some r2 =>
        match wsDrop1 r2 with
        | Option.none => Option.none
        | some r3 =>
          if r3 ≠ [] ∧ ¬ r3.contains '\n' then some (⟨start⟩, ⟨r3⟩) else Option.none

/-- The source's anchored BETWEEN regex
`^(?P<field>.+?)\s+[bB][eE][tT][wW][eE][eE][nN]\s+(?P<start>.+?)\s+[aA][nN][dD]\s+(?P<end>.+)$`. -/
def betweenSplit (cs : List Char) : Option (String × String × String) :=
  (List.range cs.length).findSome? fun i0 =>
    let field := cs.take (i0 + 1)
    if field.contains '\n' then Option.none else
    match wsDrop1 (cs.drop (i0 + 1)) with
    | Option.none => Option.none
    | some r1 =>
      match ciKeywordDrop r1 ['b', 'e', 't', 'w', 'e', 'e', 'n'] with
      | Option.none => Option.none
      | some r2 =>
        match wsDrop1 r2 with
        | Option.none => Option.none
        | some r3 =>
          match betweenTail r3 with
          | some (start, stop) => some (⟨field⟩, start, stop)
          | Option.none => Option.none

/-- The source's anchored IN regex
`^(?P<field>.+?)\s+[iI][nN]\s*\((?P<values>.+)\)$` (the greedy values
group runs to the closing parenthesis that is the final character). -/
def inSplit (cs : List Char) : Option (String × String) :=
  (List.range cs.length).findSome? fun i0 =>
    let field := cs.take (i0 + 1)
    if field.contains '\n' then Option.none else
    match wsDrop1 (cs.drop (i0 + 1)) with
    | Option.none => Option.none
    | some r1 =>
      match ciKeywordDrop r1 ['i', 'n'] with
      | Option.none => Option.none
      | some r2 =>
        match r2.dropWhile Char.isWhitespace with
        | '(' :: inner =>
          match inner.getLast? with
          | some ')' =>
            let values := inner.dropLast
            if values ≠ [] ∧ ¬ values.contains '\n' then some (⟨field⟩, ⟨values⟩)
            else Option.none
          | _ => Option.none
        | _ => Option.none

/-- The comparison-operator loop of `_parse_filter_expr` (`break` on the
first operator present, even when its sides are empty). -/
def cmpScan (ops : List String) (normalized_text text src : String) : PyFilter :=
  match ops with
  | [] => { expr := some text, source := some src }
  | op :: rest =>
    match firstSubIdx normalized_text.toList op.toList with
    | Option.none => cmpScan rest normalized_text text src
    | some idx =>
      let lhs : String := ⟨normalized_text.toList.take idx⟩
      let rhs : String := ⟨normalized_text.toList.drop (idx + op.length)⟩
      let field := (pyTrim lhs)
      let value_text := (pyTrim rhs)
      if field ≠ "" ∧ value_text ≠ "" then
        { field := some field, op := some op,
          value := some (.scalar (parseScalarFilterValue value_text)), source := some src }
      else { expr := some text, source := some src }

/-- `_parse_filter_expr` from `app/sql_planner.py`. -/
def parseFilterExpr (filter_text : String) : PyFilter :=
  let text := (pyTrim filter_text)
  let src := "step_b_filters"
  if text = "" then { expr := some text, source := some src } else
  match betweenSplit text.toList with
  | some (field, start, stop) =>
    { field := some (pyTrim field), op := some "between",
      value := some (.list [parseScalarFilterValue start, parseScalarFilterValue stop]),
      source := some src }
  | Option.none =>
    match inSplit text.toList with
    | some (field, valuesText) =>
      let raw_values := (splitOnChar valuesText.toList ',').map fun cs => pyTrim ⟨cs⟩
      let values := (raw_values.filter fun v => v ≠ "").map parseScalarFilterValue
      { field := some (pyTrim field), op := some "in", value := some (.list values),
        source := some src }
    | Option.none =>
      cmpScan ["!=", ">=", "<=", "=", ">", "<"] (pyReplace text "＝" "=") text src

/-- `_add_alias` from `app/sql_planner.py` (first writer wins). -/
def addAlias (alias_lookup : List (String × String)) (aliasText canonical : String) :
    List (String × String) :=
  let key := normalizeKey aliasText
  if key ≠ "" ∧ ¬ alias_lookup.any (fun kv => kv.1 = key) then alias_lookup ++ [(key, canonical)]
  else alias_lookup

/-- Register `canonical`, the bare name and every synonym of one
field-like definition (the repeated block inside
`_build_field_alias_lookup`). -/
def addNamedAliases (acc : List (String × String)) (canonical name : String)
    (syns : List String) : List (String × String) :=
  let acc := addAlias acc canonical canonical
  let acc := addAlias acc name canonical
  syns.foldl (fun acc syn => addAlias acc syn canonical) acc

/-- `_build_field_alias_lookup` from `app/sql_planner.py`. -/
def buildFieldAliasLookup (semantic_layer : Option SemanticLayer) (dataset_name : String) :
    List (String × String) :=
  match semantic_layer with
  | Option.none => []
  | some sl =>
    let dataset := layerDataset sl dataset_name
    let acc : List (String × String) := []
    let acc := dataset.dimensions.foldl
      (fun acc dimension =>
        let name := (pyTrim dimension.name)
        if name = "" then acc
        else addNamedAliases acc (dataset_name ++ "." ++ name) name dimension.synonyms)
      acc
    let acc := dataset.time_dimensions.foldl
      (fun acc td =>
        let name := (pyTrim td.name)
        if name = "" then acc
        else
          let canonical := dataset_name ++ "." ++ name
          let acc := addNamedAliases acc canonical name td.synonyms
          if pyLower (pyTrim td.grain) = "month" then
            ["月份", "month", "month_id", "年月", "月度"].foldl
              (fun acc a => addAlias acc a canonical) acc
          else acc)
      acc
    let join_entities := dataset.joins.filterMap fun j =>
      let e := (pyTrim (j.entity.getD ""))
      if e = "" then Option.none else some e
    let join_entities := if dataset_name = "" then sl.entities.map (fun p => p.1) else join_entities
    join_entities.foldl
      (fun acc entity_name =>
        let entity := layerEntity sl entity_name
        entity.fields.foldl
          (fun acc field =>
            let name := (pyTrim field.name)
            if name = "" then acc
            else addNamedAliases acc (entity_name ++ "." ++ name) name field.synonyms)
          acc)
      acc

/-- The normalized, non-empty metric ask phrases of the features
(`normalized_asks` in `_infer_metrics_from_features`). -/
def metricAskPhrases (extracted_features : Features) : List String :=
  ((extracted_features.metrics.filter fun m => pyTrim m ≠ "").map normalizePhrase).filter
    fun a => a ≠ ""

/-- The normalized, non-empty alias phrases of one metric definition
(`normalized_aliases` in `_infer_metrics_from_features`: the name plus its
non-blank synonyms). -/
def metricAliasPhrases (metric : FieldDef) : List String :=
  (((pyTrim metric.name) :: metric.synonyms.filter fun s => pyTrim s ≠ "").map
    normalizePhrase).filter fun a => a ≠ ""

/-- `_infer_metrics_from_features` from `app/sql_planner.py`. -/
def inferMetricsFromFeatures (extracted_features : Features)
    (semantic_layer : Option SemanticLayer) : List String :=
  match semantic_layer with
  | Option.none => []
  | some sl =>
    if (extracted_features.metrics.filter fun m => pyTrim m ≠ "") = [] then []
    else if metricAskPhrases extracted_features = [] then []
    else
      uniqueKeepOrder <| sl.datasets.flatMap fun dpair =>
        dpair.2.metrics.filterMap fun metric =>
          if pyTrim metric.name = "" then Option.none
          else if metricAliasPhrases metric = [] then Option.none
          else if (metricAskPhrases extracted_features).any (fun ask =>
              (metricAliasPhrases metric).any fun al =>
                strHasSub al ask ∨ strHasSub ask al) then
            some (dpair.1 ++ "." ++ pyTrim metric.name)
          else Option.none

/-- `_normalize_filter_field` from `app/sql_planner.py`. -/
def normalizeFilterField (parsed : PyFilter) (alias_lookup : List (String × String))
    (raw_filter_text : String) : PyFilter :=
  match parsed.field with
  | Option.none => parsed
  | some field =>
    if (pyTrim field) = "" then parsed else
    let fallback : PyFilter :=
      if strHasSub (pyTrim field) "." then parsed
      else { expr := some (pyTrim raw_filter_text), source := some (parsed.source.getD "step_b_filters") }
    match dictGet alias_lookup (normalizeKey field) with
    | some c => if c ≠ "" then { parsed with field := some c } else fallback
    | Option.none => fallback

/-- `_build_step_b_filters` from `app/sql_planner.py`. -/
def buildStepBFilters (extracted_features : Features) (semantic_layer : Option SemanticLayer)
    (selected_dataset : String) : List PyFilter :=
  let alias_lookup := buildFieldAliasLookup semantic_layer selected_dataset
  extracted_features.filters.filterMap fun f =>
    if (pyTrim f) = "" then Option.none
    else some (normalizeFilterField (parseFilterExpr f) alias_lookup f)

/-- `_resolve_time_filter_field` from `app/sql_planner.py`. -/
def resolveTimeFilterField (selected_dataset : String)
    (semantic_layer : Option SemanticLayer) : String :=
  match semantic_layer with
  | Option.none => "calendar.biz_date"
  | some sl =>
    if selected_dataset = "" then "calendar.biz_date" else
    let dataset := layerDataset sl selected_dataset
    match dataset.time_dimensions.filterMap
        (fun td => let n := (pyTrim td.name); if n = "" then Option.none else some n) with
    | [] => "calendar.biz_date"
    | n :: _ => selected_dataset ++ "." ++ n

/-- `_resolve_time_dimension_grain` from `app/sql_planner.py`. -/
def resolveTimeDimensionGrain (selected_dataset : String)
    (semantic_layer : Option SemanticLayer) : String :=
  match semantic_layer with
  | Option.none => ""
  | some sl =>
    if selected_dataset = "" then "" else
    let dataset := layerDataset sl selected_dataset
    match dataset.time_dimensions.filterMap
        (fun td => let g := pyLower (pyTrim td.grain); if g = "" then Option.none else some g) with
    | [] => ""
    | g :: _ => g

/-- `^\d{4}-\d{2}(?:-\d{2})?$` (the month/date shape tested by
`_normalize_time_bound_value`). -/
def monthDateShape (text : String) : Bool :=
  match text.toList with
  | [a, b, c, d, e, f, g] =>
    a.isDigit ∧ b.isDigit ∧ c.isDigit ∧ d.isDigit ∧ e = '-' ∧ f.isDigit ∧ g.isDigit
  | [a, b, c, d, e, f, g, h, i, j] =>
    a.isDigit ∧ b.isDigit ∧ c.isDigit ∧ d.isDigit ∧ e = '-' ∧ f.isDigit ∧ g.isDigit ∧
      h = '-' ∧ i.isDigit ∧ j.isDigit
  | _ => false

/-- `_normalize_time_bound_value` from `app/sql_planner.py`. -/
def normalizeTimeBoundValue (value grain : String) : String :=
  let text := (pyTrim value)
  if grain = "month" ∧ monthDateShape text then strTake text 7 else text

/-- One attempt of the `(\d{4})[-年/](\d{1,2})` scan at the head of `cs`;
on success returns the groups and the number of characters consumed. -/
def monthScanStep (cs : List Char) : Option (String × String × Nat) :=
  match cs with
  | y1 :: y2 :: y3 :: y4 :: sep :: rest =>
    if y1.isDigit ∧ y2.isDigit ∧ y3.isDigit ∧ y4.isDigit ∧
        (sep = '-' ∨ sep = '年' ∨ sep = '/') then
      match rest with
      | m1 :: m2 :: _ =>
        if m1.isDigit then
          if m2.isDigit then some (⟨[y1, y2, y3, y4]⟩, ⟨[m1, m2]⟩, 7)
          else some (⟨[y1, y2, y3, y4]⟩, ⟨[m1]⟩, 6)
        else Option.none
      | [m1] =>
        if m1.isDigit then some (⟨[y1, y2, y3, y4]⟩, ⟨[m1]⟩, 6) else Option.none
      | [] => Option.none
    else Option.none
  | _ => Option.none

/-- Fuel-driven worker of `monthScan`. -/
def monthScanGo : Nat → List Char → List (String × String)
  | 0, _ => []
  | _ + 1, [] => []
  | fuel + 1, c :: rest =>
    match monthScanStep (c :: rest) with
    | some (y, m, k) => (y, m) :: monthScanGo fuel (rest.drop (k - 1))
    | Option.none => monthScanGo fuel rest

/-- Non-overlapping left-to-right `re.findall` scan for
`(\d{4})[-年/](\d{1,2})` (each step consumes at least one character, so
a fuel of the text length always suffices). -/
def monthScan (cs : List Char) : List (String × String) :=
  monthScanGo cs.length cs

/-- `_extract_month_tokens` from `app/sql_planner.py`. -/
def extractMonthTokens (query_text : String) : List String :=
  if (pyTrim query_text) = "" then [] else
  uniqueKeepOrder <| (monthScan query_text.toList).filterMap fun ym =>
    let mm := zfill2 ym.2
    let m := digitsToNat mm.toList
    if 1 ≤ m ∧ m ≤ 12 then some (ym.1 ++ "-" ++ mm) else Option.none

/-- `_build_time_filter_from_bounds` from `app/sql_planner.py`. -/
def buildTimeFilterFromBounds (time_start time_end selected_dataset : String)
    (semantic_layer : Option SemanticLayer) : List PyFilter :=
  let start := (pyTrim time_start)
  let stop := (pyTrim time_end)
  if start = "" ∨ stop = "" then [] else
  let grain := resolveTimeDimensionGrain selected_dataset semantic_layer
  [{ field := some (resolveTimeFilterField selected_dataset semantic_layer),
     op := some "between",
     value := some (.list [.s (normalizeTimeBoundValue start grain),
       .s (normalizeTimeBoundValue stop grain)]),
     source := some "step_b_time_bounds" }]

/-- `_prune_conflicting_month_filters` from `app/sql_planner.py` (note the
source also drops non-dict entries via its `isinstance` guard). -/
def pruneConflictingMonthFilters (selected_filters : List PlanFilter) (month_field : String) :
    List PlanFilter :=
  selected_filters.filterMap fun pf =>
    match pf with
    | .nonDict _ => Option.none
    | .dict f =>
      let source := f.source.getD ""
      let field := f.field.getD ""
      let op := pyLower (pyTrim (f.op.getD ""))
      let expr := f.expr.getD ""
      if source = "step_b_time_bounds" then Option.none
      else if field = month_field ∧ (op = "=" ∨ op = "between" ∨ op = "in") ∧
          source = "step_b_filters" then Option.none
      else if source = "step_b_filters" ∧ strHasSub expr "月份" then Option.none
      else some pf

/-- `_infer_dimensions_from_features` from `app/sql_planner.py`. -/
def inferDimensionsFromFeatures (extracted_features : Features) (selected_dataset : String)
    (semantic_layer : Option SemanticLayer) : List String :=
  match semantic_layer with
  | Option.none => []
  | some sl =>
    if selected_dataset = "" then []
    else if ¬ extracted_features.dimensions.any (fun d => pyTrim d ≠ "") then []
    else
      match (layerDataset sl selected_dataset).time_dimensions.filterMap
          (fun td => if pyTrim td.name = "" then Option.none else some (pyTrim td.name)) with
      | [] => []
      | n :: _ => [selected_dataset ++ "." ++ n]

/-- `_canonicalize_dimensions_for_dataset` from `app/sql_planner.py`. -/
def canonicalizeDimensionsForDataset (selected_dimensions : List String)
    (selected_dataset : String) (semantic_layer : Option SemanticLayer) : List String :=
  if selected_dimensions = [] ∨ selected_dataset = "" then selected_dimensions else
  match semantic_layer with
  | Option.none => selected_dimensions
  | some sl =>
    match (layerDataset sl selected_dataset).time_dimensions with
    | [] => selected_dimensions
    | td :: _ =>
      if pyTrim td.name = "" then selected_dimensions
      else
        uniqueKeepOrder <| selected_dimensions.map fun dim =>
          if dim = "calendar.biz_date" then selected_dataset ++ "." ++ pyTrim td.name
          else dim

/-- `_filter_dimensions_for_dataset` from `app/sql_planner.py`
(`owner` is the prefix of the canonical name before the first dot). -/
def filterDimensionsForDataset (selected_dimensions : List String)
    (selected_dataset : String) (semantic_layer : Option SemanticLayer) : List String :=
  if selected_dimensions = [] ∨ selected_dataset = "" then selected_dimensions else
  match semantic_layer with
  | Option.none => selected_dimensions
  | some sl =>
    uniqueKeepOrder <| selected_dimensions.filterMap fun dim =>
      if ¬ strHasSub dim "." then Option.none
      else if beforeFirstDot dim = selected_dataset ∨ layerHasEntity sl (beforeFirstDot dim) then
        some dim
      else Option.none

/-- `_sanitize_llm_filters` from `app/sql_planner.py`. -/
def sanitizeLlmFilters (llm_filters : List PlanFilter) (semantic_layer : Option SemanticLayer)
    (selected_dataset : String) : List PyFilter :=
  let alias_lookup := buildFieldAliasLookup semantic_layer selected_dataset
  let valid_canonical_fields := alias_lookup.map fun kv => kv.2
  llm_filters.filterMap fun item =>
    match item with
    | .nonDict _ => Option.none
    | .dict f =>
      let fieldRes : Option (PyFilter × String) :=
        match f.field with
        | some s =>
          if (pyTrim s) ≠ "" then
            let dotted : Option (PyFilter × String) :=
              if strHasSub (pyTrim s) "." ∧ (pyTrim s) ∈ valid_canonical_fields then
                some ({ f with field := some (pyTrim s) }, (pyTrim s))
              else Option.none
            match dictGet alias_lookup (normalizeKey s) with
            | some c => if c ≠ "" then some ({ f with field := some c }, c) else dotted
            | Option.none => dotted
          else some (f, "")
        | Option.none => some (f, "")
      match fieldRes with
      | Option.none => Option.none
      | some (copied, canonical_field) =>
        let op := pyReplace (pyLower (pyTrim (f.op.getD ""))) "_" " "
        if op ≠ "" then
          if op = "is null" ∨ op = "is not null" then
            if canonical_field = "" then Option.none
            else some { field := some canonical_field, op := some op }
          else if op = "between" ∨ op = "=" ∨ op = "!=" ∨ op = ">" ∨ op = ">=" ∨
              op = "<" ∨ op = "<=" ∨ op = "in" then
            some copied
          else Option.none
        else some copied

/-- `merge_llm_selection_into_plan` from `app/sql_planner.py`:
deterministically assemble the semantic plan from Step-C candidates and
the untrusted LLM selection. -/
def mergeLlmSelectionIntoPlan (llm_selection : LlmSelection) (token_hits : TokenHits)
    (extracted_features : Features) (semantic_layer : Option SemanticLayer) : Plan :=
  let ms := token_hits.matchList
  let metric_candidates := canonicalCandidates ms "metric"
  let dimension_candidates := dimensionCandidates ms
  let dataset_candidates := datasetCandidates ms
  let selected_metrics := safeSelectedValues metric_candidates llm_selection.selected_metrics
  let selected_dimensions := safeSelectedValues dimension_candidates llm_selection.selected_dimensions
  let selected_datasets := safeSelectedValues dataset_candidates llm_selection.selected_dataset_candidates
  let selected_metrics := if selected_metrics = [] then metric_candidates else selected_metrics
  let selected_metrics :=
    if selected_metrics = [] then inferMetricsFromFeatures extracted_features semantic_layer
    else selected_metrics
  let selected_datasets := if selected_datasets = [] then dataset_candidates else selected_datasets
  let selected_datasets :=
    if selected_datasets = [] ∧ selected_metrics ≠ [] then
      uniqueKeepOrder (selected_metrics.filterMap fun m =>
        if strHasSub m "." then some (beforeFirstDot m) else Option.none)
    else selected_datasets
  let primary_dataset := selected_datasets.headD ""
  let selected_dimensions :=
    if selected_dimensions = [] then dimension_candidates else selected_dimensions
  let selected_dimensions :=
    if selected_dimensions = [] then
      inferDimensionsFromFeatures extracted_features primary_dataset semantic_layer
    else selected_dimensions
  let selected_dimensions := filterDimensionsForDataset selected_dimensions primary_dataset semantic_layer
  let selected_dimensions := canonicalizeDimensionsForDataset selected_dimensions primary_dataset semantic_layer
  let selected_filters := sanitizeLlmFilters llm_selection.selected_filters semantic_layer primary_dataset
  let selected_filters :=
    if selected_filters = [] then buildStepBFilters extracted_features semantic_layer primary_dataset
    else selected_filters
  let selected_filters := selected_filters ++
    buildTimeFilterFromBounds extracted_features.time_start extracted_features.time_end
      primary_dataset semantic_layer
  let selected_filters := selected_filters.map PlanFilter.dict
  let grain := resolveTimeDimensionGrain primary_dataset semantic_layer
  let month_tokens := extractMonthTokens extracted_features.query_text
  let selected_filters :=
    if grain = "month" ∧ month_tokens.length ≥ 2 then
      let month_field := resolveTimeFilterField primary_dataset semantic_layer
      let month_filter : PyFilter :=
        { field := some month_field, op := some "between",
          value := some (.list [.s (month_tokens.headD ""), .s (month_tokens.getLast?.getD "")]),
          source := some "query_text_month_bounds" }
      pruneConflictingMonthFilters selected_filters month_field ++ [PlanFilter.dict month_filter]
    else selected_filters
  let rejected_candidates := token_hits.blocked_matches.filterMap fun b =>
    if b.canonical_name ≠ "" then
      some { canonical_name := b.canonical_name, reason := "sensitive_or_disallowed" }
    else Option.none
  let needs_clarification := selected_metrics.isEmpty && selected_dimensions.isEmpty
  { selected_metrics := selected_metrics,
    selected_dimensions := selected_dimensions,
    selected_filters := selected_filters,
    selected_dataset_candidates := selected_datasets,
    rejected_candidates := rejected_candidates,
    needs_clarification := needs_clarification,
    clarification_questions := if needs_clarification then ["請補充要查詢的指標或維度名稱。"] else [] }

/-- `SemanticEntry` from `app/token_matcher.py` (dataset/entity/table are
`""` for Python `None`; the match payload applies `or ""` to them, which
collapses the two the same way). -/
structure SemanticEntry where
  object_type : String := ""
  canonical_name : String := ""
  aliases : List String := []
  dataset : String := ""
  entity : String := ""
  table : String := ""
  allowed : Bool := true
deriving DecidableEq, Repr

/-- `SemanticTokenMatcher._normalize`. -/
def pyNormalize (text : String) : String :=
  pyLower (pyTrim text)

/-- `SemanticTokenMatcher._to_match_payload` (the optional `score` key is
used only for retrieval hits and is not modelled). -/
def toMatchPayload (entry : SemanticEntry) (source : String) : MatchDict :=
  { object_type := entry.object_type, canonical_name := entry.canonical_name,
    dataset := entry.dataset, entity := entry.entity, table := entry.table,
    allowed := some entry.allowed, source := source }

/-- The values collected by `_build_exact_matches`: every non-blank string
of the `tokens`, `metrics` and `dimensions` feature arrays, normalized. -/
def exactValues (extracted_features : Features) : List String :=
  ((extracted_features.tokens ++ extracted_features.metrics ++
      extracted_features.dimensions).filter fun v => (pyTrim v) ≠ "").map pyNormalize

/-- Accumulator of the `_build_exact_matches` loops (`seen` canonical
names, allowed `hits`, `blocked` payloads). -/
structure ExactState where
  seen : List String := []
  hits : List MatchDict := []
  blocked : List MatchDict := []
deriving DecidableEq, Repr

/-- Inner-loop body of `_build_exact_matches` for one (value, entry) pair. -/
def exactStep (st : ExactState) (value : String) (entry : SemanticEntry) : ExactState :=
  if value ∈ entry.aliases then
    if entry.canonical_name ∈ st.seen then st
    else
      let payload := toMatchPayload entry "exact"
      if entry.allowed then
        { st with seen := st.seen ++ [entry.canonical_name], hits := st.hits ++ [payload] }
      else
        { st with seen := st.seen ++ [entry.canonical_name], blocked := st.blocked ++ [payload] }
  else st

/-- `SemanticTokenMatcher._build_exact_matches`: returns the
`(matches, blocked)` pair of the exact path. -/
def buildExactMatches (entries : List SemanticEntry) (extracted_features : Features) :
    List MatchDict × List MatchDict :=
  let final := (exactValues extracted_features).foldl
    (fun st v => entries.foldl (fun st e => exactStep st v e) st) {}
  (final.hits, final.blocked)

/-- The exact path as the specification's words describe it: identical to
`buildExactMatches` except that the `filters` array is also scanned, per
§4.1 step 1 of the spec. Used only to compare the source behaviour with
the claimed one. -/
def exactValuesClaimed (extracted_features : Features) : List String :=
  ((extracted_features.tokens ++ extracted_features.metrics ++
      extracted_features.dimensions ++ extracted_features.filters).filter
    fun v => (pyTrim v) ≠ "").map pyNormalize

/-- The claimed exact matcher over `exactValuesClaimed` (spec comparison
definition, not part of the source). -/
def buildExactMatchesClaimed (entries : List SemanticEntry) (extracted_features : Features) :
    List MatchDict × List MatchDict :=
  let final := (exactValuesClaimed extracted_features).foldl
    (fun st v => entries.foldl (fun st e => exactStep st v e) st) {}
  (final.hits, final.blocked)

/-- `SemanticLookup` from `app/sql_compiler.py`. -/
structure SemanticLookup where
  dataset_name : String
  metric_expr_by_name : List (String × String)
  metric_type_by_name : List (String × String)
  dimension_expr_by_name : List (String × String)
  first_time_expr : String
  from_clause : String
  join_clauses : List (String × String)
  calendar_table : String
  calendar_join_on : String
deriving DecidableEq, Repr

/-- `_quote_sql_value` from `app/sql_compiler.py` (Python `bool` is an
`int`, so `True`/`False` pass through `str` unquoted; a list value is
stringified and quoted like any other non-numeric object). -/
def quoteSqlValue : PyVal → String
  | .scalar .none => "NULL"
  | .scalar (.i n) => toString n
  | .scalar (.f v) => v
  | .scalar (.b v) => if v then "True" else "False"
  | .scalar (.s v) => sQuote ++ pyReplace v sQuote (sQuote ++ sQuote) ++ sQuote
  | .list vs =>
    sQuote ++ pyReplace (pyValStr (.list vs)) sQuote (sQuote ++ sQuote) ++ sQuote

/-- `_build_semantic_lookup` from `app/sql_compiler.py`. -/
def buildSemanticLookup (dataset_name : String) (semantic_layer : SemanticLayer) :
    SemanticLookup :=
  let dataset := layerDataset semantic_layer dataset_name
  let mmaps := dataset.metrics.foldl
    (fun (acc : List (String × String) × List (String × String)) metric =>
      let canonical := dataset_name ++ "." ++ metric.name
      let expr := (pyTrim metric.expr)
      let metric_type := pyLower (pyTrim metric.aggType)
      if canonical ≠ "" ∧ expr ≠ "" then
        (dictSet acc.1 canonical expr, dictSet acc.2 canonical metric_type)
      else acc)
    ([], [])
  let dimension_expr := dataset.dimensions.foldl
    (fun acc dimension =>
      let canonical := dataset_name ++ "." ++ dimension.name
      let expr := (pyTrim dimension.expr)
      if canonical ≠ "" ∧ expr ≠ "" then dictSet acc canonical expr else acc)
    []
  let dimension_expr := dataset.time_dimensions.foldl
    (fun acc td =>
      let canonical := dataset_name ++ "." ++ td.name
      let expr := (pyTrim td.expr)
      if canonical ≠ "" ∧ expr ≠ "" then dictSet acc canonical expr else acc)
    dimension_expr
  let first_time_expr :=
    (dataset.time_dimensions.filterMap fun td =>
      let e := (pyTrim td.expr)
      if e = "" then Option.none else some e).headD ""
  let dimension_expr := semantic_layer.entities.foldl
    (fun acc epair =>
      epair.2.fields.foldl
        (fun acc field =>
          let canonical := epair.1 ++ "." ++ field.name
          let expr := (pyTrim field.expr)
          if canonical ≠ "" ∧ expr ≠ "" then dictSet acc canonical expr else acc)
        acc)
    dimension_expr
  let calendar_table := pyTrim (layerEntity semantic_layer "calendar").table
  let joinsAcc := dataset.joins.foldl
    (fun (acc : List (String × String) × String) join =>
      let on_raw :=
        if (join.onKey = Option.none ∨ join.onKey = some "") ∧ join.onTrue.isSome then join.onTrue
        else join.onKey
      let on_clause := (pyTrim (on_raw.getD ""))
      match join.entity with
      | Option.none => acc
      | some ename =>
        if ename = "" ∨ on_clause = "" then acc
        else
          let table := pyTrim (layerEntity semantic_layer ename).table
          if table = "" then acc
          else
            ((acc.1 ++ [(ename, "LEFT JOIN " ++ table ++ " ON " ++ on_clause)]),
              if ename = "calendar" then on_clause else acc.2))
    ([], "")
  { dataset_name := dataset_name,
    metric_expr_by_name := mmaps.1,
    metric_type_by_name := mmaps.2,
    dimension_expr_by_name := dimension_expr,
    first_time_expr := first_time_expr,
    from_clause := (pyTrim dataset.fromClause),
    join_clauses := joinsAcc.1,
    calendar_table := calendar_table,
    calendar_join_on := joinsAcc.2 }

/-- `_normalize_metric_expr` from `app/sql_compiler.py`. -/
def normalizeMetricExpr (expr metric_type : String) : String :=
  let mt := pyLower (pyTrim metric_type)
  if mt = "sum" then "SUM(" ++ expr ++ ")"
  else if mt = "avg" then "AVG(" ++ expr ++ ")"
  else if mt = "count_distinct" then "COUNT(DISTINCT " ++ expr ++ ")"
  else if mt = "count" then "COUNT(" ++ expr ++ ")"
  else expr

/-- `_should_use_calendar_skeleton` from `app/sql_compiler.py` (keyed to
the one dataset name `deposit_balance_daily`). -/
def shouldUseCalendarSkeleton (lookup : SemanticLookup) (group_by_parts : List String) : Bool :=
  if lookup.dataset_name ≠ "deposit_balance_daily" then false
  else if lookup.calendar_table = "" ∨ lookup.calendar_join_on = "" then false
  else if lookup.first_time_expr = "" then false
  else lookup.first_time_expr ∈ group_by_parts

/-- The dimension loop of `compile_sql_from_semantic_plan`: for each
selected dimension that resolves to a non-empty expression, its SELECT
item and its GROUP BY expression (unresolvable names are skipped). -/
def dimensionSelectPairs (lookup : SemanticLookup) (dims : List String) :
    List (String × String) :=
  dims.filterMap fun canonical =>
    match dictGet lookup.dimension_expr_by_name canonical with
    | some expr =>
      if expr = "" then Option.none
      else some (expr ++ " AS " ++ pyReplace canonical "." "_", expr)
    | Option.none => Option.none

/-- The metric loop of `compile_sql_from_semantic_plan` (unresolvable
names are skipped; aggregates are `COALESCE`-wrapped under the calendar
skeleton). -/
def metricSelectItems (lookup : SemanticLookup) (use_calendar_skeleton : Bool)
    (mets : List String) : List String :=
  mets.filterMap fun canonical =>
    match dictGet lookup.metric_expr_by_name canonical with
    | some expr =>
      if expr = "" then Option.none
      else
        let metric_type := (dictGet lookup.metric_type_by_name canonical).getD ""
        let metric_expr := normalizeMetricExpr expr metric_type
        let metric_expr :=
          if use_calendar_skeleton ∧ (metric_type = "sum" ∨ metric_type = "avg" ∨
              metric_type = "count" ∨ metric_type = "count_distinct") then
            "COALESCE(" ++ metric_expr ++ ", 0)"
          else metric_expr
        some (metric_expr ++ " AS " ++ pyReplace canonical "." "_")
    | Option.none => Option.none

/-- The full SELECT list assembled by `compile_sql_from_semantic_plan`
(dimension items first, then metric items; identical to the expression
inside `compileSqlFromSemanticPlan`). -/
def compileSelectParts (lookup : SemanticLookup) (enhanced_plan : Plan) : List String :=
  let dim_pairs := dimensionSelectPairs lookup enhanced_plan.selected_dimensions
  (dim_pairs.map fun p => p.1) ++
    metricSelectItems lookup
      (shouldUseCalendarSkeleton lookup (dim_pairs.map fun p => p.2))
      enhanced_plan.selected_metrics

/-- A selected dimension resolves to a usable expression in the primary
dataset's lookup map. -/
def resolvableDimension (lookup : SemanticLookup) (canonical : String) : Bool :=
  match dictGet lookup.dimension_expr_by_name canonical with
  | some e => e ≠ ""
  | Option.none => false

/-- A selected metric resolves to a usable expression in the primary
dataset's lookup map. -/
def resolvableMetric (lookup : SemanticLookup) (canonical : String) : Bool :=
  match dictGet lookup.metric_expr_by_name canonical with
  | some e => e ≠ ""
  | Option.none => false

/-- The GROUP BY expression list assembled by
`compile_sql_from_semantic_plan`. -/
def compileGroupByParts (lookup : SemanticLookup) (enhanced_plan : Plan) : List String :=
  (dimensionSelectPairs lookup enhanced_plan.selected_dimensions).map fun p => p.2

/-- The WHERE-clause rendering of one filter in
`compile_sql_from_semantic_plan` (the `if/elif` chain of the source: a
malformed `between`/`in` value falls through to the raw-expression
branch). -/
def wherePart (lookup : SemanticLookup) : PlanFilter → Option String
  | .nonDict _ => Option.none
  | .dict f =>
    let field := (pyTrim (f.field.getD ""))
    let op := pyLower (pyTrim (f.op.getD ""))
    let value := f.value
    let field_expr := (dictGet lookup.dimension_expr_by_name field).getD field
    let betweenOk : Bool := op == "between" &&
      (match value with | some (.list vs) => vs.length == 2 | _ => false)
    let cmpOk : Bool := op == "=" || op == "!=" || op == ">" || op == ">=" ||
      op == "<" || op == "<="
    let inOk : Bool := op == "in" &&
      (match value with | some (.list vs) => !vs.isEmpty | _ => false)
    if betweenOk then
      match value with
      | some (.list vs) =>
        some (field_expr ++ " BETWEEN " ++ quoteSqlValue (.scalar (vs.headD .none)) ++
          " AND " ++ quoteSqlValue (.scalar ((vs.drop 1).headD .none)))
      | _ => Option.none
    else if cmpOk then
      some (field_expr ++ " " ++ op ++ " " ++ quoteSqlValue (value.getD (.scalar .none)))
    else if inOk then
      match value with
      | some (.list vs) =>
        some (field_expr ++ " IN (" ++
          String.intercalate ", " (vs.map fun v => quoteSqlValue (.scalar v)) ++ ")")
      | _ => Option.none
    else
      match f.expr with
      | some e => if (pyTrim e) ≠ "" then some (pyTrim e) else Option.none
      | Option.none => Option.none

/-- `compile_sql_from_semantic_plan` from `app/sql_compiler.py`; a raised
`ValueError` is `Except.error` carrying the exception message. -/
def compileSqlFromSemanticPlan (enhanced_plan : Plan) (semantic_layer : SemanticLayer) :
    Except String String :=
  match enhanced_plan.selected_dataset_candidates with
  | [] => Except.error "No dataset candidates available for SQL compilation."
  | dataset_name :: _ =>
    let lookup := buildSemanticLookup dataset_name semantic_layer
    if lookup.from_clause = "" then
      Except.error ("Dataset " ++ sQuote ++ dataset_name ++ sQuote ++ " has no from clause.")
    else
      let group_by_parts := compileGroupByParts lookup enhanced_plan
      let use_calendar_skeleton := shouldUseCalendarSkeleton lookup group_by_parts
      let select_parts := compileSelectParts lookup enhanced_plan
      if select_parts = [] then
        Except.error "No valid dimensions/metrics found for SELECT clause."
      else
        let where_parts := enhanced_plan.selected_filters.filterMap (wherePart lookup)
        let sql_lines := ["SELECT " ++ String.intercalate ", " select_parts]
        let sql_lines := sql_lines ++
          (if use_calendar_skeleton then
            ["FROM " ++ lookup.calendar_table,
              "LEFT JOIN " ++ lookup.from_clause ++ " ON " ++ lookup.calendar_join_on] ++
              ((lookup.join_clauses.filter fun jc => jc.1 ≠ "calendar").map fun jc => jc.2)
          else
            ["FROM " ++ lookup.from_clause] ++ (lookup.join_clauses.map fun jc => jc.2))
        let sql_lines := sql_lines ++
          (if where_parts ≠ [] then ["WHERE " ++ String.intercalate " AND " where_parts] else [])
        let sql_lines := sql_lines ++
          (if group_by_parts ≠ [] then ["GROUP BY " ++ String.intercalate ", " group_by_parts] else [])
        Except.ok (String.intercalate "\n" sql_lines)

deriving instance DecidableEq for Except

/-- The plan with unresolvable selected dimensions/metrics (those with no
usable expression in the primary dataset's lookup maps) removed. -/
def planWithResolvedSelection (enhanced_plan : Plan) (semantic_layer : SemanticLayer) : Plan :=
  let lookup := buildSemanticLookup
    (enhanced_plan.selected_dataset_candidates.headD "") semantic_layer
  { enhanced_plan with
    selected_dimensions := enhanced_plan.selected_dimensions.filter fun c =>
      resolvableDimension lookup c
    selected_metrics := enhanced_plan.selected_metrics.filter fun c =>
      resolvableMetric lookup c }

/-- The `(errors, error_codes)` accumulator of `validate_semantic_plan`. -/
structure VState where
  errors : List String := []
  error_codes : List String := []
deriving DecidableEq, Repr

/-- `_add_error` from `app/semantic_validator.py`: messages always
accumulate, codes are appended only when absent. -/
def addError (st : VState) (code message : String) : VState :=
  { errors := st.errors ++ [message],
    error_codes :=
      if code ∈ st.error_codes then st.error_codes else st.error_codes ++ [code] }

/-- One conditional `_add_error` call site. -/
def addErrorIf (st : VState) (cond : Bool) (code message : String) : VState :=
  if cond then addError st code message else st

/-- `_dataset_from_canonical_name` from `app/semantic_validator.py`. -/
def datasetFromCanonicalName (canonical_name : String) : Option String :=
  if ¬ strHasSub canonical_name "." then Option.none
  else
    let dataset := beforeFirstDot canonical_name
    if dataset = "" then Option.none else some dataset

/-- `_collect_selected_datasets` from `app/semantic_validator.py`. -/
def collectSelectedDatasets (enhanced_plan : Plan) (semantic_layer : Option SemanticLayer) :
    List String :=
  let selected := enhanced_plan.selected_dataset_candidates.filter fun c => c ≠ ""
  let datasetsD := (semantic_layer.map fun sl => sl.datasets).getD []
  let entitiesD := (semantic_layer.map fun sl => sl.entities).getD []
  (enhanced_plan.selected_metrics ++ enhanced_plan.selected_dimensions).foldl
    (fun selected canonical_name =>
      match datasetFromCanonicalName canonical_name with
      | Option.none => selected
      | some dataset =>
        if entitiesD ≠ [] ∧ entitiesD.any (fun p => p.1 = dataset) then selected
        else if datasetsD ≠ [] ∧ ¬ datasetsD.any (fun p => p.1 = dataset) then selected
        else if dataset ∈ selected then selected
        else selected ++ [dataset])
    selected

/-- `_has_join_path` from `app/semantic_validator.py` (sets are modelled
as de-duplicated lists; only membership and emptiness are observed). -/
def hasJoinPath (sl : SemanticLayer) (selected_datasets : List String) : Bool :=
  let sets := selected_datasets.map fun dataset_name =>
    uniqueKeepOrder ((layerDataset sl dataset_name).joins.filterMap fun j =>
      match j.entity with
      | some e => if e ≠ "" then some e else Option.none
      | Option.none => Option.none)
  if sets.any fun s => s.isEmpty then false
  else if sets.isEmpty then true
  else
    let common := sets.foldl (fun acc s => acc.filter fun e => e ∈ s) (sets.headD [])
    !common.isEmpty

/-- `_build_valid_canonical_sets` from `app/semantic_validator.py`
(membership-only sets, modelled as lists). -/
def buildValidCanonicalSets (sl : SemanticLayer) : List String × List String :=
  let metric_set := sl.datasets.flatMap fun p =>
    p.2.metrics.filterMap fun m =>
      let n := (pyTrim m.name)
      if n = "" then Option.none else some (p.1 ++ "." ++ n)
  let dimension_set :=
    (sl.datasets.flatMap fun p =>
      (p.2.dimensions.filterMap fun d =>
        let n := (pyTrim d.name)
        if n = "" then Option.none else some (p.1 ++ "." ++ n)) ++
      (p.2.time_dimensions.filterMap fun d =>
        let n := (pyTrim d.name)
        if n = "" then Option.none else some (p.1 ++ "." ++ n))) ++
    (sl.entities.flatMap fun e =>
      e.2.fields.filterMap fun fd =>
        let n := (pyTrim fd.name)
        if n = "" then Option.none else some (e.1 ++ "." ++ n))
  (metric_set, dimension_set)

/-- `_has_compilable_select_item` from `app/semantic_validator.py`. -/
def hasCompilableSelectItem (enhanced_plan : Plan) (sl : SemanticLayer) : Bool :=
  let dataset_name := (pyTrim (enhanced_plan.selected_dataset_candidates.headD ""))
  if dataset_name = "" then false
  else
    let ds := layerDataset sl dataset_name
    let metric_names := ds.metrics.filterMap fun m =>
      let n := (pyTrim m.name)
      if n = "" then Option.none else some (dataset_name ++ "." ++ n)
    let dimension_names := ds.dimensions.filterMap fun d =>
      let n := (pyTrim d.name)
      if n = "" then Option.none else some (dataset_name ++ "." ++ n)
    enhanced_plan.selected_metrics.any (fun x => x ∈ metric_names) ||
      enhanced_plan.selected_dimensions.any (fun x => x ∈ dimension_names)

/-- The per-filter shape check of `validate_semantic_plan` for the filter
at (0-based) index `idx`: the error code and message it contributes, if
any. -/
def filterShapeIssue (idx : Nat) (pf : PlanFilter) : Option (String × String) :=
  match pf with
  | .nonDict _ =>
    some ("INVALID_FILTER_SHAPE", "第 " ++ toString (idx + 1) ++ " 個過濾條件格式錯誤，需為物件。")
  | .dict f =>
    let op := pyLower (pyTrim (f.op.getD ""))
    let value := f.value
    let has_expr : Bool := match f.expr with | some e => (pyTrim e) ≠ "" | Option.none => false
    if op = "between" then
      if (match value with | some (.list vs) => vs.length == 2 | _ => false : Bool) then
        Option.none
      else
        some ("INVALID_FILTER_BETWEEN", "第 " ++ toString (idx + 1) ++ " 個 between 條件必須提供兩個值。")
    else if op = "=" ∨ op = "!=" ∨ op = ">" ∨ op = ">=" ∨ op = "<" ∨ op = "<=" then
      if value = Option.none then
        some ("INVALID_FILTER_VALUE", "第 " ++ toString (idx + 1) ++ " 個過濾條件缺少 value。")
      else Option.none
    else if op = "in" then
      if (match value with | some (.list vs) => !vs.isEmpty | _ => false : Bool) then
        Option.none
      else
        some ("INVALID_FILTER_VALUE", "第 " ++ toString (idx + 1) ++ " 個 in 條件需提供至少一個值。")
    else if op = "is null" ∨ op = "is not null" then Option.none
    else if has_expr then Option.none
    else
      some ("INVALID_FILTER_SHAPE", "第 " ++ toString (idx + 1) ++ " 個過濾條件缺少可用欄位（field/op/value 或 expr）。")

/-- The `for idx, f in enumerate(filters)` loop of `validate_semantic_plan`. -/
def filterShapeLoop : VState → Nat → List PlanFilter → VState
  | st, _, [] => st
  | st, idx, pf :: rest =>
    match filterShapeIssue idx pf with
    | some cm => filterShapeLoop (addError st cm.1 cm.2) (idx + 1) rest
    | Option.none => filterShapeLoop st (idx + 1) rest

/-- `validate_semantic_plan` from `app/semantic_validator.py` (the
source's `if first_dataset:` wrapper around the DATASET_MISMATCH check is
flattened into the single conjunction of its conditions; the inner list
comprehensions are pure, so the behaviour is identical). -/
def validateSemanticPlan (enhanced_plan : Plan) (token_hits : TokenHits)
    (governance_limits : Governance) (semantic_layer : Option SemanticLayer) :
    ValidationResult :=
  let blocked := token_hits.blocked_matches
  if blocked ≠ [] then
    let st := addError {} "BLOCKED_MATCH" "命中敏感欄位（allowed=false），請改用非敏感欄位或彙總指標。"
    { ok := false, errors := st.errors, error_codes := st.error_codes }
  else
    let st : VState := {}
    let filters := enhanced_plan.selected_filters
    let has_selection_context := enhanced_plan.selected_metrics ≠ [] ∨
      enhanced_plan.selected_dimensions ≠ [] ∨ enhanced_plan.selected_dataset_candidates ≠ []
    let st := addErrorIf st
      (governance_limits.require_time_filter ∧ has_selection_context ∧ filters = [])
      "TIME_FILTER_REQUIRED" "查詢需要時間條件（require_time_filter=true），請補充時間範圍。"
    let ta := enhanced_plan.time_axis
    let st := addErrorIf st (ta.has_time_filter ∧ (ta.start_date = "" ∨ ta.end_date = ""))
      "TIME_AXIS_INCOMPLETE" "時間軸解析不完整，缺少 start_date/end_date。"
    let st := addErrorIf st
      (enhanced_plan.selected_metrics = [] ∧ enhanced_plan.selected_dimensions = [])
      "EMPTY_SELECTION" "尚未選到可用的指標/維度，請補充查詢條件。"
    let selected_datasets := collectSelectedDatasets enhanced_plan semantic_layer
    let st :=
      match semantic_layer with
      | some sl =>
        addErrorIf st (selected_datasets.length > 1 ∧ ¬ hasJoinPath sl selected_datasets)
          "MULTI_DATASET_NO_JOIN_PATH"
          ("多資料集無法透過共同維度連接（datasets: " ++
            String.intercalate ", " selected_datasets ++ "），請改用同一資料集的指標/維度。")
      | Option.none => st
    match semantic_layer with
    | Option.none =>
      { ok := st.errors.isEmpty, errors := st.errors, error_codes := st.error_codes }
    | some sl =>
      let sets := buildValidCanonicalSets sl
      let invalid_metrics := enhanced_plan.selected_metrics.filter fun m => m ∉ sets.1
      let invalid_dimensions := enhanced_plan.selected_dimensions.filter fun d => d ∉ sets.2
      let invalid_filter_fields := filters.filterMap fun pf =>
        match pf with
        | .nonDict _ => Option.none
        | .dict f =>
          match f.field with
          | Option.none => Option.none
          | some field =>
            let normalized_field := (pyTrim field)
            if normalized_field = "" ∨ ¬ strHasSub normalized_field "." then Option.none
            else if normalized_field ∉ sets.2 then some normalized_field
            else Option.none
      let st := addErrorIf st
        (invalid_metrics ≠ [] ∨ invalid_dimensions ≠ [] ∨ invalid_filter_fields ≠ [])
        "INVALID_CANONICAL_REF"
        ("選取了語意層不存在的欄位：" ++
          String.intercalate ", " (invalid_metrics ++ invalid_dimensions ++ invalid_filter_fields))
      let first_dataset := enhanced_plan.selected_dataset_candidates.headD ""
      let foreign_metrics := enhanced_plan.selected_metrics.filter fun m =>
        strHasSub m "." ∧ beforeFirstDot m ≠ first_dataset
      let foreign_dimensions := enhanced_plan.selected_dimensions.filter fun d =>
        strHasSub d "." ∧ beforeFirstDot d ≠ first_dataset ∧
          ¬ layerHasEntity sl (beforeFirstDot d)
      let st := addErrorIf st
        (first_dataset ≠ "" ∧ (foreign_metrics ≠ [] ∨ foreign_dimensions ≠ []))
        "DATASET_MISMATCH" "已選欄位與 selected_dataset_candidates[0] 不一致，請改用同一資料集。"
      let st := filterShapeLoop st 0 filters
      let st := addErrorIf st (¬ hasCompilableSelectItem enhanced_plan sl)
        "NO_COMPILABLE_SELECT" "目前選取內容無法編譯成有效 SELECT，請改選同資料集內的指標/維度。"
      { ok := st.errors.isEmpty, errors := st.errors, error_codes := st.error_codes }

/-- The Step-F gating fragment of `main` (`app/main.py`, the
`if validation.get("ok"):` block): `generated_sql` stays `""` and the
compiler is never invoked unless validation succeeded. -/
def stepFGeneratedSql (validation : ValidationResult) (enhanced_plan : Plan)
    (semantic_layer : SemanticLayer) : Except String String :=
  if validation.ok then compileSqlFromSemanticPlan enhanced_plan semantic_layer
  else Except.ok ""

/-- Concrete fixture: the `sales` dataset of the repository's pipeline
tests (entities `calendar` and `branch`). -/
def fxSalesDataset : DatasetDef :=
  { fromClause := "fact_sales as s"
    metrics := [{ name := "revenue", expr := "SUM(s.revenue)" },
                { name := "orders", expr := "COUNT(*)" }]
    time_dimensions := [{ name := "biz_date", expr := "s.biz_date", synonyms := ["交易日"] }]
    dimensions := [{ name := "biz_date", expr := "s.biz_date", synonyms := ["日期"] }]
    joins := [{ entity := some "calendar", onKey := some "s.biz_date = dim_calendar.biz_date" },
              { entity := some "branch", onKey := some "s.branch_id = dim_branch.branch_id" }] }

/-- Concrete fixture: a semantic layer with the `sales` dataset. -/
def fxSalesLayer : SemanticLayer :=
  { entities := [("calendar", { table := "dim_calendar"
                                fields := [{ name := "biz_date", expr := "dim_calendar.biz_date", synonyms := ["日期"] }] }),
                 ("branch", { table := "dim_branch"
                              fields := [{ name := "region", expr := "dim_branch.region", synonyms := ["地區"] }] })]
    datasets := [("sales", fxSalesDataset)] }

/-- Concrete fixture: the `deposit_balance_daily` dataset joined to a
calendar entity (the calendar-skeleton scenario of the tests). -/
def fxDepositDataset : DatasetDef :=
  { fromClause := "fact_account_balance_daily as bal"
    time_dimensions := [{ name := "biz_date", expr := "bal.biz_date" }]
    metrics := [{ name := "deposit_end_balance", expr := "bal.end_balance", aggType := "sum" }]
    dimensions := [{ name := "biz_date", expr := "bal.biz_date" }]
    joins := [{ entity := some "calendar", onKey := some "bal.biz_date = dim_calendar.biz_date" }] }

/-- Concrete fixture: semantic layer holding `deposit_balance_daily`. -/
def fxDepositLayer : SemanticLayer :=
  { entities := [("calendar", { table := "dim_calendar"
                                fields := [{ name := "biz_date", expr := "dim_calendar.biz_date" }] })]
    datasets := [("deposit_balance_daily", fxDepositDataset)] }

/-- Concrete fixture: plan selecting the deposit metric grouped by the
dataset's own time dimension. -/
def fxDepositPlan : Plan :=
  { selected_metrics := ["deposit_balance_daily.deposit_end_balance"]
    selected_dimensions := ["deposit_balance_daily.biz_date"]
    selected_dataset_candidates := ["deposit_balance_daily"] }

/-- Concrete fixture: a `loan_balance_daily` dataset wired to a calendar
entity exactly like `fxDepositDataset` (same joins, same grouping), but
with a different dataset name. -/
def fxLoanDataset : DatasetDef :=
  { fromClause := "fact_loan_balance_daily as bal"
    time_dimensions := [{ name := "biz_date", expr := "bal.biz_date" }]
    metrics := [{ name := "loan_end_balance", expr := "bal.end_balance", aggType := "sum" }]
    dimensions := [{ name := "biz_date", expr := "bal.biz_date" }]
    joins := [{ entity := some "calendar", onKey := some "bal.biz_date = dim_calendar.biz_date" }] }

/-- Concrete fixture: semantic layer holding `loan_balance_daily`. -/
def fxLoanLayer : SemanticLayer :=
  { entities := [("calendar", { table := "dim_calendar"
                                fields := [{ name := "biz_date", expr := "dim_calendar.biz_date" }] })]
    datasets := [("loan_balance_daily", fxLoanDataset)] }

/-- Concrete fixture: plan selecting the loan metric grouped by the
dataset's own time dimension. -/
def fxLoanPlan : Plan :=
  { selected_metrics := ["loan_balance_daily.loan_end_balance"]
    selected_dimensions := ["loan_balance_daily.biz_date"]
    selected_dataset_candidates := ["loan_balance_daily"] }

/-- Concrete fixture: a one-dataset layer whose metric `balance` carries
the synonym 存款餘額, used for metric inference from features. -/
def fxBalDataset : DatasetDef :=
  { fromClause := "fact_bal as b"
    metrics := [{ name := "balance", expr := "b.end_balance", synonyms := ["存款餘額"] }]
    time_dimensions := [{ name := "biz_date", expr := "b.biz_date" }] }

/-- Concrete fixture: semantic layer holding only `bal`. -/
def fxBalLayer : SemanticLayer :=
  { datasets := [("bal", fxBalDataset)] }

/-- Concrete fixture: features asking for the metric phrase 存款餘額總額
(no token matches exist for it). -/
def fxBalFeatures : Features :=
  { metrics := ["存款餘額總額"] }

/-- Concrete fixture: one allowed semantic entry with alias 地區. -/
def fxRegionEntry : SemanticEntry :=
  { object_type := "field", canonical_name := "branch.region"
    aliases := ["地區", "region"], entity := "branch", table := "dim_branch", allowed := true }

/-- Concrete fixture: features whose only candidate string sits in the
`filters` array. -/
def fxFilterOnlyFeatures : Features :=
  { filters := ["地區"] }

/-- Concrete fixture: features carrying the same string as a token. -/
def fxTokenFeatures : Features :=
  { tokens := ["地區"] }

/-- Concrete fixture: a between filter with a 1-element value array. -/
def fxBadBetweenFilter : PyFilter :=
  { field := some "sales.biz_date", op := some "between"
    value := some (.list [.s "2026-01-01"]) }

/-- Concrete fixture: plan carrying the malformed between filter. -/
def fxBadBetweenPlan : Plan :=
  { selected_metrics := ["sales.revenue"]
    selected_filters := [.dict fxBadBetweenFilter]
    selected_dataset_candidates := ["sales"] }

/-- Concrete fixture: plan carrying the malformed between filter twice. -/
def fxTwoBadBetweenPlan : Plan :=
  { selected_metrics := ["sales.revenue"]
    selected_filters := [.dict fxBadBetweenFilter, .dict fxBadBetweenFilter]
    selected_dataset_candidates := ["sales"] }

/-- Concrete fixture: a proposer filter dictionary with no `field` and no
`op` key, only a raw SQL expression. -/
def fxNoFieldFilter : PyFilter :=
  { expr := some "dim_branch.region IS NOT NULL OR 1=1" }

/-- Concrete fixture: plan carrying the field-less raw-expression filter. -/
def fxNoFieldPlan : Plan :=
  { selected_metrics := ["sales.revenue"]
    selected_filters := [.dict fxNoFieldFilter]
    selected_dataset_candidates := ["sales"] }

/-- Concrete fixture: a valid sales plan with one metric and one entity
dimension, used as a compilable witness input. -/
def fxSalesPlan : Plan :=
  { selected_metrics := ["sales.revenue"]
    selected_dimensions := ["sales.biz_date", "sales.ghost_dimension"]
    selected_filters := []
    selected_dataset_candidates := ["sales"] }

/-- Abbreviation for the coupling between codes and messages: a nonempty
code list implies a nonempty message list. -/
def VInv (st : VState) : Prop := st.error_codes ≠ [] → st.errors ≠ []

/-- `m` is the canonical name of a metric defined somewhere in the
semantic layer (`"<dataset>.<metric name>"`). -/
def layerMetricCanonical (semantic_layer : Option SemanticLayer) (m : String) : Prop :=
  ∃ sl, semantic_layer = some sl ∧ ∃ p ∈ sl.datasets, ∃ met ∈ p.2.metrics,
    pyTrim met.name ≠ "" ∧ m = p.1 ++ "." ++ pyTrim met.name

/-- `d` is the canonical name of one of dataset `ds`'s time dimensions. -/
def dsTimeCanonical (sl : SemanticLayer) (ds d : String) : Prop :=
  ∃ td ∈ (layerDataset sl ds).time_dimensions,
    pyTrim td.name ≠ "" ∧ d = ds ++ "." ++ pyTrim td.name

/-- Concrete fixture: a dataset whose time dimension has grain `month`. -/
def fxMonthDataset : DatasetDef :=
  { fromClause := "fact_m as m"
    time_dimensions := [{ name := "month_id", expr := "m.month_id", grain := "month" }]
    metrics := [{ name := "amount", expr := "m.amount", aggType := "sum" }] }

/-- Concrete fixture: semantic layer holding the month-grain dataset. -/
def fxMonthLayer : SemanticLayer :=
  { datasets := [("dep_month", fxMonthDataset)] }

theorem foldl_invariant {α β : Type} (f : β → α → β) (P : β → Prop)
    (hf : ∀ acc a, P acc → P (f acc a)) :
    ∀ (l : List α) (acc : β), P acc → P (l.foldl f acc) := by
  intro l
  induction l with
  | nil => intro acc h; exact h
  | cons a as ih => intro acc h; exact ih _ (hf acc a h)

theorem mem_uniqueKeepOrder_fold (x : String) (l : List String) :
    ∀ acc, x ∈ l.foldl (fun out v => if v ∈ out then out else out ++ [v]) acc ↔
      (x ∈ acc ∨ x ∈ l) := by
  induction l with
  | nil => intro acc; simp
  | cons v vs ih =>
    intro acc
    simp only [List.foldl_cons]
    by_cases hv : v ∈ acc
    · rw [if_pos hv, ih]
      simp only [List.mem_cons]
      constructor
      · rintro (h | h)
        · exact Or.inl h
        · exact Or.inr (Or.inr h)
      · rintro (h | h | h)
        · exact Or.inl h
        · exact Or.inl (h ▸ hv)
        · exact Or.inr h
    · rw [if_neg hv, ih]
      simp only [List.mem_append, List.mem_cons, List.mem_singleton]
      tauto

theorem mem_uniqueKeepOrder (x : String) (l : List String) :
    x ∈ uniqueKeepOrder l ↔ x ∈ l := by
  unfold uniqueKeepOrder
  rw [mem_uniqueKeepOrder_fold]
  simp

theorem safeSelectedValues_subset (cands vals : List String) :
    ∀ x ∈ safeSelectedValues cands vals, x ∈ cands := by
  unfold safeSelectedValues
  refine foldl_invariant _ (fun out => ∀ x ∈ out, x ∈ cands) ?_ vals [] (by simp)
  intro acc v hacc x hx
  simp only at hx
  by_cases h1 : (pyTrim v) = "" ∨ (pyTrim v) ∉ cands
  · rw [if_pos h1] at hx; exact hacc x hx
  · rw [if_neg h1] at hx
    push_neg at h1
    by_cases h2 : (pyTrim v) ∈ acc
    · rw [if_pos h2] at hx; exact hacc x hx
    · rw [if_neg h2] at hx
      rcases List.mem_append.mp hx with h | h
      · exact hacc x h
      · have hxv : x = (pyTrim v) := by simpa using h
        exact hxv ▸ h1.2

theorem addError_code_mem (st : VState) (code msg c : String)
    (h : c ∈ st.error_codes) : c ∈ (addError st code msg).error_codes := by
  unfold addError
  by_cases hc : code ∈ st.error_codes
  · simpa [hc] using h
  · simp only [if_neg hc]
    exact List.mem_append.mpr (Or.inl h)

theorem addError_code_self (st : VState) (code msg : String) :
    code ∈ (addError st code msg).error_codes := by
  unfold addError
  by_cases hc : code ∈ st.error_codes
  · simp [hc]
  · simp [hc]

theorem addError_errors_ne (st : VState) (code msg : String) :
    (addError st code msg).errors ≠ [] := by
  unfold addError
  simp

theorem addError_nodup (st : VState) (code msg : String)
    (h : st.error_codes.Nodup) : (addError st code msg).error_codes.Nodup := by
  unfold addError
  by_cases hc : code ∈ st.error_codes
  · simpa [hc]
  · simp only [if_neg hc]
    exact List.Nodup.append h (List.nodup_singleton code) (by simpa using hc)

theorem addError_inv (st : VState) (code msg : String) : VInv (addError st code msg) := by
  intro _
  exact addError_errors_ne st code msg

theorem addErrorIf_code_mem (st : VState) (cond : Bool) (code msg c : String)
    (h : c ∈ st.error_codes) : c ∈ (addErrorIf st cond code msg).error_codes := by
  unfold addErrorIf
  cases cond
  · simpa using h
  · simpa using addError_code_mem st code msg c h

theorem addErrorIf_nodup (st : VState) (cond : Bool) (code msg : String)
    (h : st.error_codes.Nodup) : (addErrorIf st cond code msg).error_codes.Nodup := by
  unfold addErrorIf
  cases cond
  · simpa using h
  · simpa using addError_nodup st code msg h

theorem addErrorIf_inv (st : VState) (cond : Bool) (code msg : String)
    (h : VInv st) : VInv (addErrorIf st cond code msg) := by
  unfold addErrorIf
  cases cond
  · simpa using h
  · simpa using addError_inv st code msg

theorem filterShapeLoop_code_mem (c : String) :
    ∀ (fs : List PlanFilter) (st : VState) (idx : Nat),
      c ∈ st.error_codes → c ∈ (filterShapeLoop st idx fs).error_codes := by
  intro fs
  induction fs with
  | nil => intro st idx h; simpa [filterShapeLoop] using h
  | cons pf rest ih =>
    intro st idx h
    unfold filterShapeLoop
    cases hpf : filterShapeIssue idx pf with
    | none => exact ih _ _ h
    | some cm => exact ih _ _ (addError_code_mem st cm.1 cm.2 c h)

theorem filterShapeLoop_nodup :
    ∀ (fs : List PlanFilter) (st : VState) (idx : Nat),
      st.error_codes.Nodup → (filterShapeLoop st idx fs).error_codes.Nodup := by
  intro fs
  induction fs with
  | nil => intro st idx h; simpa [filterShapeLoop] using h
  | cons pf rest ih =>
    intro st idx h
    unfold filterShapeLoop
    cases hpf : filterShapeIssue idx pf with
    | none => exact ih _ _ h
    | some cm => exact ih _ _ (addError_nodup st cm.1 cm.2 h)

theorem filterShapeLoop_inv :
    ∀ (fs : List PlanFilter) (st : VState) (idx : Nat),
      VInv st → VInv (filterShapeLoop st idx fs) := by
  intro fs
  induction fs with
  | nil => intro st idx h; simpa [filterShapeLoop] using h
  | cons pf rest ih =>
    intro st idx h
    unfold filterShapeLoop
    cases hpf : filterShapeIssue idx pf with
    | none => exact ih _ _ h
    | some cm => exact ih _ _ (addError_inv st cm.1 cm.2)

theorem filterShapeLoop_code_of_mem (c : String) (pf : PlanFilter)
    (hissue : ∀ idx : Nat, ∃ m, filterShapeIssue idx pf = some (c, m)) :
    ∀ (fs : List PlanFilter) (st : VState) (idx : Nat),
      pf ∈ fs → c ∈ (filterShapeLoop st idx fs).error_codes := by
  intro fs
  induction fs with
  | nil => intro st idx h; cases h
  | cons pf0 rest ih =>
    intro st idx hmem
    unfold filterShapeLoop
    rcases List.mem_cons.mp hmem with heq | hrest
    · subst heq
      rcases hissue idx with ⟨m, hm⟩
      rw [hm]
      exact filterShapeLoop_code_mem c rest _ _ (addError_code_self st c m)
    · cases hpf : filterShapeIssue idx pf0 with
      | none => exact ih _ _ hrest
      | some cm => exact ih _ _ hrest

/-- C3: whenever `token_hits` contains at least one blocked match,
`validate_semantic_plan` returns immediately with `ok = false` and
`error_codes` equal to exactly the one-element list `["BLOCKED_MATCH"]`
(and the single blocked-match message); no other rule is evaluated, so no
other code ever accompanies `BLOCKED_MATCH`. -/
theorem validate_blocked_match_exclusive (enhanced_plan : Plan) (token_hits : TokenHits)
    (governance_limits : Governance) (semantic_layer : Option SemanticLayer)
    (h : token_hits.blocked_matches ≠ []) :
    validateSemanticPlan enhanced_plan token_hits governance_limits semantic_layer =
      { ok := false,
        errors := ["命中敏感欄位（allowed=false），請改用非敏感欄位或彙總指標。"],
        error_codes := ["BLOCKED_MATCH"] } := by
  simp only [validateSemanticPlan]
  rw [if_pos h]
  rfl

/-- Witness for C3 at a concrete blocked match. -/
theorem validate_blocked_match_exclusive_witness :
    validateSemanticPlan fxBadBetweenPlan
        { blocked_matches := [{ canonical_name := "customer.id_no" }] } {} (some fxSalesLayer) =
      { ok := false,
        errors := ["命中敏感欄位（allowed=false），請改用非敏感欄位或彙總指標。"],
        error_codes := ["BLOCKED_MATCH"] } :=
  validate_blocked_match_exclusive fxBadBetweenPlan
    { blocked_matches := [{ canonical_name := "customer.id_no" }] } {} (some fxSalesLayer)
    (by simp)

/-- C10: the `error_codes` list returned by `validate_semantic_plan`
contains each code at most once on every input (codes are de-duplicated on
accumulation by `_add_error`), while the message list may carry one
message per violation — at the concrete plan with the same malformed
between filter twice, the code appears once and the messages twice. -/
theorem validate_error_codes_nodup (enhanced_plan : Plan) (token_hits : TokenHits)
    (governance_limits : Governance) (semantic_layer : Option SemanticLayer) :
    (validateSemanticPlan enhanced_plan token_hits governance_limits
        semantic_layer).error_codes.Nodup ∧
    (validateSemanticPlan fxTwoBadBetweenPlan {} {} (some fxSalesLayer)).error_codes =
      ["INVALID_FILTER_BETWEEN"] ∧
    (validateSemanticPlan fxTwoBadBetweenPlan {} {} (some fxSalesLayer)).errors =
      ["第 1 個 between 條件必須提供兩個值。", "第 2 個 between 條件必須提供兩個值。"] := by
  refine ⟨?_, by decide, by decide⟩
  simp only [validateSemanticPlan]
  split
  · simp [addError]
  · cases semantic_layer with
    | none =>
      apply addErrorIf_nodup
      apply addErrorIf_nodup
      apply addErrorIf_nodup
      simp
    | some sl =>
      apply addErrorIf_nodup
      apply filterShapeLoop_nodup
      apply addErrorIf_nodup
      apply addErrorIf_nodup
      apply addErrorIf_nodup
      apply addErrorIf_nodup
      apply addErrorIf_nodup
      apply addErrorIf_nodup
      simp

theorem filterShapeIssue_bad_between (f : PyFilter) (vs : List PyScalar)
    (hop : pyLower (pyTrim (f.op.getD "")) = "between")
    (hval : f.value = some (PyVal.list vs)) (hlen : vs.length = 1) :
    ∀ idx : Nat, ∃ m, filterShapeIssue idx (PlanFilter.dict f) =
      some ("INVALID_FILTER_BETWEEN", m) := by
  intro idx
  refine ⟨"第 " ++ toString (idx + 1) ++ " 個 between 條件必須提供兩個值。", ?_⟩
  simp [filterShapeIssue, hop, hval, hlen]

/-- C5: a plan containing a `between` filter whose value array has one
element (with a semantic layer present and no blocked matches) fails
validation with `INVALID_FILTER_BETWEEN` among the error codes, and the
Step-F gate then leaves `generated_sql` empty — the compiler is never
invoked when validation is not ok. -/
theorem validate_rejects_one_element_between (enhanced_plan : Plan) (token_hits : TokenHits)
    (governance_limits : Governance) (sl : SemanticLayer) (f : PyFilter) (vs : List PyScalar)
    (hb : token_hits.blocked_matches = [])
    (hmem : PlanFilter.dict f ∈ enhanced_plan.selected_filters)
    (hop : pyLower (pyTrim (f.op.getD "")) = "between")
    (hval : f.value = some (PyVal.list vs))
    (hlen : vs.length = 1) :
    (validateSemanticPlan enhanced_plan token_hits governance_limits (some sl)).ok = false ∧
    "INVALID_FILTER_BETWEEN" ∈
      (validateSemanticPlan enhanced_plan token_hits governance_limits (some sl)).error_codes ∧
    stepFGeneratedSql (validateSemanticPlan enhanced_plan token_hits governance_limits (some sl))
      enhanced_plan sl = Except.ok "" := by
  have hissue := filterShapeIssue_bad_between f vs hop hval hlen
  have hcode : "INVALID_FILTER_BETWEEN" ∈
      (validateSemanticPlan enhanced_plan token_hits governance_limits (some sl)).error_codes := by
    simp only [validateSemanticPlan]
    rw [if_neg (by simp [hb])]
    exact addErrorIf_code_mem _ _ _ _ _
      (filterShapeLoop_code_of_mem _ _ hissue _ _ _ hmem)
  have hinv : (validateSemanticPlan enhanced_plan token_hits governance_limits
        (some sl)).error_codes ≠ [] →
      (validateSemanticPlan enhanced_plan token_hits governance_limits (some sl)).errors ≠ [] := by
    simp only [validateSemanticPlan]
    rw [if_neg (by simp [hb])]
    exact addErrorIf_inv _ _ _ _ (filterShapeLoop_inv _ _ _ (addErrorIf_inv _ _ _ _
      (addErrorIf_inv _ _ _ _ (addErrorIf_inv _ _ _ _ (addErrorIf_inv _ _ _ _
        (addErrorIf_inv _ _ _ _ (addErrorIf_inv _ _ _ _ (by intro h; simp at h))))))))
  have hne : (validateSemanticPlan enhanced_plan token_hits governance_limits
      (some sl)).errors ≠ [] := by
    apply hinv
    intro hc
    rw [hc] at hcode
    cases hcode
  have hok : (validateSemanticPlan enhanced_plan token_hits governance_limits
      (some sl)).ok = false := by
    have hshape : (validateSemanticPlan enhanced_plan token_hits governance_limits (some sl)).ok =
        (validateSemanticPlan enhanced_plan token_hits governance_limits
          (some sl)).errors.isEmpty := by
      simp only [validateSemanticPlan]
      rw [if_neg (by simp [hb])]
    rw [hshape]
    simpa using hne
  refine ⟨hok, hcode, ?_⟩
  simp [stepFGeneratedSql, hok]

/-- Witness for C5 at the concrete one-element between plan. -/
theorem validate_rejects_one_element_between_witness :
    (validateSemanticPlan fxBadBetweenPlan {} {} (some fxSalesLayer)).ok = false ∧
    "INVALID_FILTER_BETWEEN" ∈
      (validateSemanticPlan fxBadBetweenPlan {} {} (some fxSalesLayer)).error_codes ∧
    stepFGeneratedSql (validateSemanticPlan fxBadBetweenPlan {} {} (some fxSalesLayer))
      fxBadBetweenPlan fxSalesLayer = Except.ok "" :=
  validate_rejects_one_element_between fxBadBetweenPlan {} {} fxSalesLayer
    fxBadBetweenFilter [.s "2026-01-01"] rfl (by simp [fxBadBetweenPlan]) (by decide)
    (by decide) (by decide)

/-- C6: `compile_sql_from_semantic_plan` raises (returning no SQL at all)
if and only if the plan has no dataset candidate, or the primary dataset
has no from-clause, or the assembled SELECT list is empty; in every other
case it returns a complete SQL string — compilation is all-or-nothing. -/
theorem compile_fails_iff_precondition (enhanced_plan : Plan) (semantic_layer : SemanticLayer) :
    (∃ e, compileSqlFromSemanticPlan enhanced_plan semantic_layer = Except.error e) ↔
      (enhanced_plan.selected_dataset_candidates = [] ∨
        ∃ d rest, enhanced_plan.selected_dataset_candidates = d :: rest ∧
          ((buildSemanticLookup d semantic_layer).from_clause = "" ∨
            compileSelectParts (buildSemanticLookup d semantic_layer) enhanced_plan = [])) := by
  cases hds : enhanced_plan.selected_dataset_candidates with
  | nil =>
    constructor
    · intro _
      exact Or.inl rfl
    · intro _
      exact ⟨"No dataset candidates available for SQL compilation.",
        by simp [compileSqlFromSemanticPlan, hds]⟩
  | cons d rest =>
    by_cases hfrom : (buildSemanticLookup d semantic_layer).from_clause = ""
    · constructor
      · intro _
        exact Or.inr ⟨d, rest, rfl, Or.inl hfrom⟩
      · intro _
        exact ⟨"Dataset " ++ sQuote ++ d ++ sQuote ++ " has no from clause.",
          by simp [compileSqlFromSemanticPlan, hds, hfrom]⟩
    · by_cases hsp : compileSelectParts (buildSemanticLookup d semantic_layer) enhanced_plan = []
      · constructor
        · intro _
          exact Or.inr ⟨d, rest, rfl, Or.inr hsp⟩
        · intro _
          exact ⟨"No valid dimensions/metrics found for SELECT clause.",
            by simp [compileSqlFromSemanticPlan, hds, hfrom, hsp]⟩
      · constructor
        · rintro ⟨e, he⟩
          simp [compileSqlFromSemanticPlan, hds, hfrom, hsp] at he
        · rintro (h | ⟨d', rest', heq, hcond⟩)
          · cases h
          · injection heq with h1 h2
            subst h1
            rcases hcond with h | h
            · exact absurd h hfrom
            · exact absurd h hsp

/-- Witness for C6: a plan with no dataset candidate makes compilation
fail. -/
theorem compile_fails_iff_precondition_witness :
    ∃ e, compileSqlFromSemanticPlan { selected_metrics := ["sales.revenue"] } fxSalesLayer =
      Except.error e :=
  (compile_fails_iff_precondition { selected_metrics := ["sales.revenue"] } fxSalesLayer).mpr
    (Or.inl rfl)

theorem filterMap_filter_of_none {α β : Type} (p : α → Bool) (f : α → Option β)
    (h : ∀ a, p a = false → f a = Option.none) :
    ∀ l : List α, (l.filter p).filterMap f = l.filterMap f := by
  intro l
  induction l with
  | nil => rfl
  | cons a as ih =>
    by_cases hp : p a = true
    · simp [List.filter_cons, hp, List.filterMap_cons, ih]
    · have hpf : p a = false := by simpa using hp
      simp [List.filter_cons, hpf, List.filterMap_cons, h a hpf, ih]

theorem dimensionSelectPairs_filter (lookup : SemanticLookup) (dims : List String) :
    dimensionSelectPairs lookup (dims.filter fun c => resolvableDimension lookup c) =
      dimensionSelectPairs lookup dims := by
  unfold dimensionSelectPairs
  apply filterMap_filter_of_none
  intro a ha
  unfold resolvableDimension at ha
  cases h : dictGet lookup.dimension_expr_by_name a with
  | none => simp [h]
  | some e =>
    rw [h] at ha
    simp only [ne_eq, decide_not, Bool.not_eq_false', decide_eq_true_eq] at ha
    simp [h, ha]

theorem metricSelectItems_filter (lookup : SemanticLookup) (useCal : Bool)
    (mets : List String) :
    metricSelectItems lookup useCal (mets.filter fun c => resolvableMetric lookup c) =
      metricSelectItems lookup useCal mets := by
  unfold metricSelectItems
  apply filterMap_filter_of_none
  intro a ha
  unfold resolvableMetric at ha
  cases h : dictGet lookup.metric_expr_by_name a with
  | none => simp [h]
  | some e =>
    rw [h] at ha
    simp only [ne_eq, decide_not, Bool.not_eq_false', decide_eq_true_eq] at ha
    simp [h, ha]

/-- C9: the compiler silently omits (without raising or reporting) every
selected dimension or metric whose canonical name has no expression in
the primary dataset's lookup maps — compiling a plan is identical to
compiling the plan with the unresolvable names removed — and, when a
dataset with a from-clause is present, it raises the SELECT-clause error
exactly when all selected items were omitted. -/
theorem compile_silently_omits_unresolvable (enhanced_plan : Plan)
    (semantic_layer : SemanticLayer) :
    compileSqlFromSemanticPlan enhanced_plan semantic_layer =
      compileSqlFromSemanticPlan (planWithResolvedSelection enhanced_plan semantic_layer)
        semantic_layer ∧
    (∀ d rest, enhanced_plan.selected_dataset_candidates = d :: rest →
      (buildSemanticLookup d semantic_layer).from_clause ≠ "" →
      (compileSqlFromSemanticPlan enhanced_plan semantic_layer =
          Except.error "No valid dimensions/metrics found for SELECT clause." ↔
        compileSelectParts (buildSemanticLookup d semantic_layer) enhanced_plan = [])) := by
  constructor
  · cases hds : enhanced_plan.selected_dataset_candidates with
    | nil =>
      simp [compileSqlFromSemanticPlan, planWithResolvedSelection, hds]
    | cons d rest =>
      have hhead : enhanced_plan.selected_dataset_candidates.headD "" = d := by
        rw [hds]
        rfl
      simp only [compileSqlFromSemanticPlan, planWithResolvedSelection,
        compileSelectParts, compileGroupByParts, hds, hhead, List.headD_cons,
        dimensionSelectPairs_filter, metricSelectItems_filter]
  · intro d rest hds hfrom
    constructor
    · intro h
      by_cases hsp : compileSelectParts (buildSemanticLookup d semantic_layer) enhanced_plan = []
      · exact hsp
      · simp [compileSqlFromSemanticPlan, hds, hfrom, hsp] at h
    · intro hsp
      simp [compileSqlFromSemanticPlan, hds, hfrom, hsp]

/-- Witness for C9 at a concrete plan with an unresolvable dimension. -/
theorem compile_silently_omits_unresolvable_witness :
    compileSqlFromSemanticPlan fxSalesPlan fxSalesLayer =
      compileSqlFromSemanticPlan (planWithResolvedSelection fxSalesPlan fxSalesLayer)
        fxSalesLayer :=
  (compile_silently_omits_unresolvable fxSalesPlan fxSalesLayer).1

theorem buildSemanticLookup_dataset_name (n : String) (sl : SemanticLayer) :
    (buildSemanticLookup n sl).dataset_name = n := by
  simp [buildSemanticLookup]

theorem shouldUseCalendarSkeleton_true (lookup : SemanticLookup) (gbp : List String)
    (hname : lookup.dataset_name = "deposit_balance_daily")
    (h1 : lookup.calendar_table ≠ "") (h2 : lookup.calendar_join_on ≠ "")
    (h3 : lookup.first_time_expr ≠ "") (h4 : lookup.first_time_expr ∈ gbp) :
    shouldUseCalendarSkeleton lookup gbp = true := by
  simp [shouldUseCalendarSkeleton, hname, h1, h2, h3, h4]

/-- C2 (amended): for every plan whose primary selected dataset is the
name `deposit_balance_daily` — the calendar-skeleton rewrite is keyed to
that one dataset name — grouped by the dataset's own (first) time
dimension, with a join to the entity named `calendar` that has a table
and a join condition, the compiled SQL's FROM clause is the calendar
table, followed by a LEFT JOIN back to the dataset's from-clause on the
original calendar-join condition, preserving all non-calendar join
clauses, and every aggregate metric (sum/avg/count/count_distinct) is
wrapped in `COALESCE(expr, 0)`. -/
theorem compile_calendar_skeleton (enhanced_plan : Plan) (semantic_layer : SemanticLayer)
    (rest : List String) (lookup : SemanticLookup)
    (hlk : lookup = buildSemanticLookup "deposit_balance_daily" semantic_layer)
    (hds : enhanced_plan.selected_dataset_candidates = "deposit_balance_daily" :: rest)
    (hfrom : lookup.from_clause ≠ "")
    (hcaltab : lookup.calendar_table ≠ "")
    (hcaljoin : lookup.calendar_join_on ≠ "")
    (hfte : lookup.first_time_expr ≠ "")
    (hgrp : lookup.first_time_expr ∈ compileGroupByParts lookup enhanced_plan)
    (hsp : compileSelectParts lookup enhanced_plan ≠ []) :
    compileSqlFromSemanticPlan enhanced_plan semantic_layer =
      Except.ok (String.intercalate "\n"
        (["SELECT " ++ String.intercalate ", " (compileSelectParts lookup enhanced_plan)] ++
          (["FROM " ++ lookup.calendar_table,
            "LEFT JOIN " ++ lookup.from_clause ++ " ON " ++ lookup.calendar_join_on] ++
            ((lookup.join_clauses.filter fun jc => jc.1 ≠ "calendar").map fun jc => jc.2)) ++
          (if enhanced_plan.selected_filters.filterMap (wherePart lookup) ≠ [] then
            ["WHERE " ++ String.intercalate " AND "
              (enhanced_plan.selected_filters.filterMap (wherePart lookup))]
          else []) ++
          (if compileGroupByParts lookup enhanced_plan ≠ [] then
            ["GROUP BY " ++ String.intercalate ", " (compileGroupByParts lookup enhanced_plan)]
          else []))) ∧
    (∀ c ∈ enhanced_plan.selected_metrics, ∀ e,
      dictGet lookup.metric_expr_by_name c = some e → e ≠ "" →
      ((dictGet lookup.metric_type_by_name c).getD "" = "sum" ∨
        (dictGet lookup.metric_type_by_name c).getD "" = "avg" ∨
        (dictGet lookup.metric_type_by_name c).getD "" = "count" ∨
        (dictGet lookup.metric_type_by_name c).getD "" = "count_distinct") →
      ("COALESCE(" ++ normalizeMetricExpr e ((dictGet lookup.metric_type_by_name c).getD "") ++
          ", 0)" ++ " AS " ++ pyReplace c "." "_") ∈ compileSelectParts lookup enhanced_plan) := by
  have hname : lookup.dataset_name = "deposit_balance_daily" := by
    rw [hlk]
    exact buildSemanticLookup_dataset_name _ _
  have hskel : shouldUseCalendarSkeleton lookup (compileGroupByParts lookup enhanced_plan) =
      true :=
    shouldUseCalendarSkeleton_true lookup _ hname hcaltab hcaljoin hfte hgrp
  constructor
  · subst hlk
    simp only [compileSqlFromSemanticPlan, hds]
    rw [if_neg hfrom, if_neg hsp, if_pos hskel]
  · intro c hc e he hene htype
    have hskel2 : shouldUseCalendarSkeleton lookup
        ((dimensionSelectPairs lookup enhanced_plan.selected_dimensions).map fun p => p.2) =
        true := hskel
    simp only [compileSelectParts]
    apply List.mem_append_right
    rw [hskel2]
    apply List.mem_filterMap.mpr
    refine ⟨c, hc, ?_⟩
    simp only [metricSelectItems, he, hene]
    rw [if_neg (by simp [hene])]
    rw [if_pos (by exact ⟨trivial, htype⟩)]

/-- Witness for C2 at the concrete deposit calendar-skeleton scenario. -/
theorem compile_calendar_skeleton_witness :
    compileSqlFromSemanticPlan fxDepositPlan fxDepositLayer =
      Except.ok ("SELECT bal.biz_date AS deposit_balance_daily_biz_date, COALESCE(SUM(bal.end_balance), 0) AS deposit_balance_daily_deposit_end_balance\nFROM dim_calendar\nLEFT JOIN fact_account_balance_daily as bal ON bal.biz_date = dim_calendar.biz_date\nGROUP BY bal.biz_date") :=
  Eq.trans
    ((compile_calendar_skeleton fxDepositPlan fxDepositLayer []
      (buildSemanticLookup "deposit_balance_daily" fxDepositLayer) rfl rfl
      (by decide) (by decide) (by decide) (by decide) (by decide) (by decide)).1)
    (by decide)

/-- C2 counterexample: the dataset `loan_balance_daily` satisfies every
condition of the claim as stated — it is grouped by its own time
dimension and declares a join to the calendar entity, which has a table
and a join condition — yet the compiled SQL's FROM clause is the fact
table, the calendar table is only LEFT JOINed, and the sum metric is not
wrapped in COALESCE: the rewrite is keyed to the dataset name
`deposit_balance_daily`. -/
theorem compile_calendar_skeleton_counterexample :
    (buildSemanticLookup "loan_balance_daily" fxLoanLayer).calendar_table = "dim_calendar" ∧
    (buildSemanticLookup "loan_balance_daily" fxLoanLayer).calendar_join_on =
      "bal.biz_date = dim_calendar.biz_date" ∧
    (buildSemanticLookup "loan_balance_daily" fxLoanLayer).first_time_expr ∈
      compileGroupByParts (buildSemanticLookup "loan_balance_daily" fxLoanLayer) fxLoanPlan ∧
    compileSqlFromSemanticPlan fxLoanPlan fxLoanLayer =
      Except.ok ("SELECT bal.biz_date AS loan_balance_daily_biz_date, SUM(bal.end_balance) AS loan_balance_daily_loan_end_balance\nFROM fact_loan_balance_daily as bal\nLEFT JOIN dim_calendar ON bal.biz_date = dim_calendar.biz_date\nGROUP BY bal.biz_date") :=
  ⟨by decide, by decide, by decide, by decide⟩

/-- C7: `_build_time_filter_from_bounds` appends a between filter on the
primary dataset's resolved time dimension iff both bounds are non-empty
after trimming; any filter it appends carries exactly the 2-element value
`[start, end]`; and when the dataset's time-dimension grain is `month`, a
bound in `YYYY-MM` or `YYYY-MM-DD` form is truncated to its 7-character
year-month prefix. -/
theorem time_filter_bounds_complete (time_start time_end selected_dataset : String)
    (semantic_layer : Option SemanticLayer) :
    (pyTrim time_start ≠ "" ∧ pyTrim time_end ≠ "" →
      buildTimeFilterFromBounds time_start time_end selected_dataset semantic_layer =
        [{ field := some (resolveTimeFilterField selected_dataset semantic_layer),
           op := some "between",
           value := some (PyVal.list
             [.s (normalizeTimeBoundValue (pyTrim time_start)
                (resolveTimeDimensionGrain selected_dataset semantic_layer)),
              .s (normalizeTimeBoundValue (pyTrim time_end)
                (resolveTimeDimensionGrain selected_dataset semantic_layer))]),
           expr := Option.none,
           source := some "step_b_time_bounds" }]) ∧
    (pyTrim time_start = "" ∨ pyTrim time_end = "" →
      buildTimeFilterFromBounds time_start time_end selected_dataset semantic_layer = []) ∧
    (∀ v : String, resolveTimeDimensionGrain selected_dataset semantic_layer = "month" →
      monthDateShape (pyTrim v) = true →
      normalizeTimeBoundValue v (resolveTimeDimensionGrain selected_dataset semantic_layer) =
        strTake (pyTrim v) 7) := by
  refine ⟨?_, ?_, ?_⟩
  · rintro ⟨h1, h2⟩
    simp only [buildTimeFilterFromBounds]
    rw [if_neg (by simp [h1, h2])]
  · intro h
    simp only [buildTimeFilterFromBounds]
    rw [if_pos h]
  · intro v hg hshape
    simp [normalizeTimeBoundValue, hg, hshape]

/-- Witness for C7 at a month-grain dataset with date-form bounds. -/
theorem time_filter_bounds_complete_witness :
    buildTimeFilterFromBounds "2026-01-01" " 2026-01-31 " "dep_month" (some fxMonthLayer) =
      [{ field := some "dep_month.month_id", op := some "between",
         value := some (PyVal.list [.s "2026-01", .s "2026-01"]), expr := Option.none,
         source := some "step_b_time_bounds" }] :=
  Eq.trans
    ((time_filter_bounds_complete "2026-01-01" " 2026-01-31 " "dep_month"
      (some fxMonthLayer)).1 ⟨by decide, by decide⟩)
    (by decide)

/-- C8: a proposer filter dictionary that carries no `field` key (here one
containing only an `expr` string, and no `op` either) survives
`_sanitize_llm_filters` unchanged, and its `expr` string is inserted
verbatim into the compiled WHERE clause — the field-resolution and
operator allow-list checks never touch it. -/
theorem sanitize_keeps_fieldless_expr_filter :
    sanitizeLlmFilters [PlanFilter.dict fxNoFieldFilter] (some fxSalesLayer) "sales" =
      [fxNoFieldFilter] ∧
    fxNoFieldFilter.field = Option.none ∧ fxNoFieldFilter.op = Option.none ∧
    compileSqlFromSemanticPlan fxNoFieldPlan fxSalesLayer =
      Except.ok ("SELECT SUM(s.revenue) AS sales_revenue\nFROM fact_sales as s\nLEFT JOIN dim_calendar ON s.biz_date = dim_calendar.biz_date\nLEFT JOIN dim_branch ON s.branch_id = dim_branch.branch_id\nWHERE dim_branch.region IS NOT NULL OR 1=1") :=
  ⟨by decide, rfl, rfl, by decide⟩

theorem inferMetricsFromFeatures_layer (extracted_features : Features)
    (semantic_layer : Option SemanticLayer) :
    ∀ m ∈ inferMetricsFromFeatures extracted_features semantic_layer,
      layerMetricCanonical semantic_layer m := by
  intro m hm
  unfold inferMetricsFromFeatures at hm
  split at hm
  · cases hm
  · next sl =>
    split at hm
    · cases hm
    · split at hm
      · cases hm
      · rw [mem_uniqueKeepOrder, List.mem_flatMap] at hm
        obtain ⟨p, hp, hmem2⟩ := hm
        rw [List.mem_filterMap] at hmem2
        obtain ⟨met, hmet, hf⟩ := hmem2
        refine ⟨sl, rfl, p, hp, met, hmet, ?_⟩
        split at hf
        · cases hf
        · rename_i hname
          split at hf
          · cases hf
          · split at hf
            · injection hf with hf
              exact ⟨hname, hf.symm⟩
            · cases hf

theorem inferDimensionsFromFeatures_time (extracted_features : Features)
    (selected_dataset : String) (semantic_layer : Option SemanticLayer) :
    ∀ d ∈ inferDimensionsFromFeatures extracted_features selected_dataset semantic_layer,
      ∃ sl, semantic_layer = some sl ∧ dsTimeCanonical sl selected_dataset d := by
  intro d hd
  unfold inferDimensionsFromFeatures at hd
  split at hd
  · cases hd
  · next sl =>
    split at hd
    · cases hd
    · split at hd
      · cases hd
      · split at hd
        · cases hd
        · rename_i n rest hfm
          have hn : n ∈ (layerDataset sl selected_dataset).time_dimensions.filterMap
              (fun td => if pyTrim td.name = "" then Option.none else some (pyTrim td.name)) := by
            rw [hfm]
            exact List.mem_cons_self n rest
          rw [List.mem_filterMap] at hn
          obtain ⟨td, htd, hf⟩ := hn
          have hdn : d = selected_dataset ++ "." ++ n := by simpa using hd
          split at hf
          · cases hf
          · rename_i hname
            injection hf with hf
            exact ⟨sl, rfl, td, htd, hname, by rw [hf]; exact hdn⟩

theorem filterDimensionsForDataset_subset (selected_dimensions : List String)
    (selected_dataset : String) (semantic_layer : Option SemanticLayer) :
    ∀ x ∈ filterDimensionsForDataset selected_dimensions selected_dataset semantic_layer,
      x ∈ selected_dimensions := by
  intro x hx
  unfold filterDimensionsForDataset at hx
  split at hx
  · exact hx
  · split at hx
    · exact hx
    · rw [mem_uniqueKeepOrder, List.mem_filterMap] at hx
      obtain ⟨a, ha, hf⟩ := hx
      split at hf
      · cases hf
      · split at hf
        · injection hf with hf
          exact hf ▸ ha
        · cases hf

theorem canonicalizeDimensionsForDataset_cases (selected_dimensions : List String)
    (selected_dataset : String) (semantic_layer : Option SemanticLayer) :
    ∀ x ∈ canonicalizeDimensionsForDataset selected_dimensions selected_dataset semantic_layer,
      x ∈ selected_dimensions ∨
        ∃ sl, semantic_layer = some sl ∧ dsTimeCanonical sl selected_dataset x := by
  intro x hx
  unfold canonicalizeDimensionsForDataset at hx
  split at hx
  · exact Or.inl hx
  · split at hx
    · exact Or.inl hx
    · next sl =>
      split at hx
      · exact Or.inl hx
      · rename_i td tail heq2
        split at hx
        · exact Or.inl hx
        · rename_i hname
          rw [mem_uniqueKeepOrder, List.mem_map] at hx
          obtain ⟨a, ha, hf⟩ := hx
          by_cases hc : a = "calendar.biz_date"
          · rw [if_pos hc] at hf
            refine Or.inr ⟨sl, rfl, td, ?_, hname, hf.symm⟩
            rw [heq2]
            exact List.mem_cons_self td tail
          · rw [if_neg hc] at hf
            exact Or.inl (hf ▸ ha)

/-- C1 (amended): the allow-list intersections of the untrusted
`llm_selection` are always subsets of the corresponding TokenMatcher
candidate lists, so the proposer can never inject a name of its own; the
plan's final `selected_metrics` are metric candidates or — only through
the deterministic feature-based fallback when the candidate list is
empty — canonical metric names defined in the semantic layer; and the
final `selected_dimensions` are dimension candidates or canonical
time-dimension names of a dataset defined in the semantic layer (via
time-dimension inference or calendar-placeholder canonicalization). -/
theorem merge_selection_allowlisted (llm_selection : LlmSelection) (token_hits : TokenHits)
    (extracted_features : Features) (semantic_layer : Option SemanticLayer) :
    (∀ x ∈ safeSelectedValues (canonicalCandidates token_hits.matchList "metric")
        llm_selection.selected_metrics,
      x ∈ canonicalCandidates token_hits.matchList "metric") ∧
    (∀ x ∈ safeSelectedValues (dimensionCandidates token_hits.matchList)
        llm_selection.selected_dimensions,
      x ∈ dimensionCandidates token_hits.matchList) ∧
    (∀ x ∈ safeSelectedValues (datasetCandidates token_hits.matchList)
        llm_selection.selected_dataset_candidates,
      x ∈ datasetCandidates token_hits.matchList) ∧
    (∀ m ∈ (mergeLlmSelectionIntoPlan llm_selection token_hits extracted_features
        semantic_layer).selected_metrics,
      m ∈ canonicalCandidates token_hits.matchList "metric" ∨
        layerMetricCanonical semantic_layer m) ∧
    (∀ d ∈ (mergeLlmSelectionIntoPlan llm_selection token_hits extracted_features
        semantic_layer).selected_dimensions,
      d ∈ dimensionCandidates token_hits.matchList ∨
        ∃ sl ds, semantic_layer = some sl ∧ dsTimeCanonical sl ds d) := by
  refine ⟨safeSelectedValues_subset _ _, safeSelectedValues_subset _ _,
    safeSelectedValues_subset _ _, ?_, ?_⟩
  · intro m hm
    simp only [mergeLlmSelectionIntoPlan] at hm
    by_cases h1 : safeSelectedValues (canonicalCandidates token_hits.matchList "metric")
        llm_selection.selected_metrics = []
    · rw [if_pos h1] at hm
      by_cases h2 : canonicalCandidates token_hits.matchList "metric" = []
      · rw [if_pos h2] at hm
        exact Or.inr (inferMetricsFromFeatures_layer _ _ m hm)
      · rw [if_neg h2] at hm
        exact Or.inl hm
    · rw [if_neg h1] at hm
      rw [if_neg h1] at hm
      exact Or.inl (safeSelectedValues_subset _ _ m hm)
  · intro d hd
    simp only [mergeLlmSelectionIntoPlan] at hd
    rcases canonicalizeDimensionsForDataset_cases _ _ _ d hd with h | ⟨sl, hsl, hts⟩
    · have h2 := filterDimensionsForDataset_subset _ _ _ d h
      by_cases h3 : safeSelectedValues (dimensionCandidates token_hits.matchList)
          llm_selection.selected_dimensions = []
      · rw [if_pos h3] at h2
        by_cases h4 : dimensionCandidates token_hits.matchList = []
        · rw [if_pos h4] at h2
          rcases inferDimensionsFromFeatures_time _ _ _ d h2 with ⟨sl, hsl, hts⟩
          exact Or.inr ⟨sl, _, hsl, hts⟩
        · rw [if_neg h4] at h2
          exact Or.inl h2
      · rw [if_neg h3] at h2
        rw [if_neg h3] at h2
        exact Or.inl (safeSelectedValues_subset _ _ d h2)
    · exact Or.inr ⟨sl, _, hsl, hts⟩

/-- C1 counterexample: with no token matches at all (every candidate list
empty), the feature fallback puts the semantic-layer metric
`bal.balance` into `selected_metrics` even though it is not among the
TokenMatcher candidates — the fallback is sourced from the semantic
layer, not from the candidates as the claim states. -/
theorem merge_selection_allowlisted_counterexample :
    (mergeLlmSelectionIntoPlan ({} : LlmSelection) ({} : TokenHits) fxBalFeatures
        (some fxBalLayer)).selected_metrics = ["bal.balance"] ∧
    canonicalCandidates ({} : TokenHits).matchList "metric" = [] ∧
    dimensionCandidates ({} : TokenHits).matchList = [] := by decide

/-- C1 witness: the amended theorem applied at the same concrete input,
instantiated at the concretely computed member `bal.balance`. -/
theorem merge_selection_allowlisted_witness :
    "bal.balance" ∈ (mergeLlmSelectionIntoPlan ({} : LlmSelection) ({} : TokenHits)
        fxBalFeatures (some fxBalLayer)).selected_metrics ∧
    ("bal.balance" ∈ canonicalCandidates ({} : TokenHits).matchList "metric" ∨
      layerMetricCanonical (some fxBalLayer) "bal.balance") :=
  ⟨by decide,
    (merge_selection_allowlisted {} {} fxBalFeatures (some fxBalLayer)).2.2.2.1
      "bal.balance" (by decide)⟩

theorem exactStep_cases (st : ExactState) (v : String) (e : SemanticEntry) (p : MatchDict) :
    (p ∈ (exactStep st v e).hits →
      p ∈ st.hits ∨ (v ∈ e.aliases ∧ e.allowed = true ∧ p = toMatchPayload e "exact")) ∧
    (p ∈ (exactStep st v e).blocked →
      p ∈ st.blocked ∨ (v ∈ e.aliases ∧ e.allowed = false ∧ p = toMatchPayload e "exact")) := by
  by_cases h1 : v ∈ e.aliases
  · by_cases h2 : e.canonical_name ∈ st.seen
    · simp only [exactStep, if_pos h1, if_pos h2]
      exact ⟨fun h => Or.inl h, fun h => Or.inl h⟩
    · by_cases h3 : e.allowed = true
      · simp only [exactStep, if_pos h1, if_neg h2, if_pos h3]
        refine ⟨fun h => ?_, fun h => Or.inl h⟩
        rcases List.mem_append.mp h with h | h
        · exact Or.inl h
        · exact Or.inr ⟨h1, h3, List.mem_singleton.mp h⟩
      · simp only [exactStep, if_pos h1, if_neg h2, if_neg h3]
        refine ⟨fun h => Or.inl h, fun h => ?_⟩
        rcases List.mem_append.mp h with h | h
        · exact Or.inl h
        · exact Or.inr ⟨h1, by simpa using h3, List.mem_singleton.mp h⟩
  · simp only [exactStep, if_neg h1]
    exact ⟨fun h => Or.inl h, fun h => Or.inl h⟩

theorem exactFoldInner_cases (v : String) (entries : List SemanticEntry) :
    ∀ (st : ExactState) (p : MatchDict),
      (p ∈ (entries.foldl (fun st e => exactStep st v e) st).hits →
        p ∈ st.hits ∨ ∃ e ∈ entries,
          v ∈ e.aliases ∧ e.allowed = true ∧ p = toMatchPayload e "exact") ∧
      (p ∈ (entries.foldl (fun st e => exactStep st v e) st).blocked →
        p ∈ st.blocked ∨ ∃ e ∈ entries,
          v ∈ e.aliases ∧ e.allowed = false ∧ p = toMatchPayload e "exact") := by
  induction entries with
  | nil => exact fun st p => ⟨fun h => Or.inl h, fun h => Or.inl h⟩
  | cons e es ih =>
    intro st p
    constructor
    · intro h
      simp only [List.foldl_cons] at h
      rcases (ih (exactStep st v e) p).1 h with h1 | ⟨e2, he2, hm⟩
      · rcases (exactStep_cases st v e p).1 h1 with h2 | hc
        · exact Or.inl h2
        · exact Or.inr ⟨e, List.mem_cons_self e es, hc⟩
      · exact Or.inr ⟨e2, List.mem_cons_of_mem _ he2, hm⟩
    · intro h
      simp only [List.foldl_cons] at h
      rcases (ih (exactStep st v e) p).2 h with h1 | ⟨e2, he2, hm⟩
      · rcases (exactStep_cases st v e p).2 h1 with h2 | hc
        · exact Or.inl h2
        · exact Or.inr ⟨e, List.mem_cons_self e es, hc⟩
      · exact Or.inr ⟨e2, List.mem_cons_of_mem _ he2, hm⟩

theorem exactFold_cases (entries : List SemanticEntry) (vals : List String) :
    ∀ (st : ExactState) (p : MatchDict),
      (p ∈ (vals.foldl (fun st v => entries.foldl (fun st e => exactStep st v e) st) st).hits →
        p ∈ st.hits ∨ ∃ v ∈ vals, ∃ e ∈ entries,
          v ∈ e.aliases ∧ e.allowed = true ∧ p = toMatchPayload e "exact") ∧
      (p ∈ (vals.foldl (fun st v => entries.foldl (fun st e => exactStep st v e) st) st).blocked →
        p ∈ st.blocked ∨ ∃ v ∈ vals, ∃ e ∈ entries,
          v ∈ e.aliases ∧ e.allowed = false ∧ p = toMatchPayload e "exact") := by
  induction vals with
  | nil => exact fun st p => ⟨fun h => Or.inl h, fun h => Or.inl h⟩
  | cons b bs ih =>
    intro st p
    constructor
    · intro h
      simp only [List.foldl_cons] at h
      rcases (ih _ p).1 h with h1 | ⟨v2, hv2, hm⟩
      · rcases (exactFoldInner_cases b entries st p).1 h1 with h2 | ⟨e2, he2, hc⟩
        · exact Or.inl h2
        · exact Or.inr ⟨b, List.mem_cons_self b bs, e2, he2, hc⟩
      · exact Or.inr ⟨v2, List.mem_cons_of_mem _ hv2, hm⟩
    · intro h
      simp only [List.foldl_cons] at h
      rcases (ih _ p).2 h with h1 | ⟨v2, hv2, hm⟩
      · rcases (exactFoldInner_cases b entries st p).2 h1 with h2 | ⟨e2, he2, hc⟩
        · exact Or.inl h2
        · exact Or.inr ⟨b, List.mem_cons_self b bs, e2, he2, hc⟩
      · exact Or.inr ⟨v2, List.mem_cons_of_mem _ hv2, hm⟩

theorem exactStep_seen_sub (st : ExactState) (v : String) (e : SemanticEntry) :
    ∀ c ∈ st.seen, c ∈ (exactStep st v e).seen := by
  intro c hc
  by_cases h1 : v ∈ e.aliases
  · by_cases h2 : e.canonical_name ∈ st.seen
    · simp only [exactStep, if_pos h1, if_pos h2]; exact hc
    · by_cases h3 : e.allowed = true
      · simp only [exactStep, if_pos h1, if_neg h2, if_pos h3]
        exact List.mem_append_left _ hc
      · simp only [exactStep, if_pos h1, if_neg h2, if_neg h3]
        exact List.mem_append_left _ hc
  · simp only [exactStep, if_neg h1]; exact hc

theorem exactFoldInner_seen_sub (v : String) (entries : List SemanticEntry) :
    ∀ (st : ExactState), ∀ c ∈ st.seen,
      c ∈ (entries.foldl (fun st e => exactStep st v e) st).seen := by
  induction entries with
  | nil => exact fun st c hc => hc
  | cons e es ih =>
    intro st c hc
    simp only [List.foldl_cons]
    exact ih _ c (exactStep_seen_sub st v e c hc)

theorem exactFold_seen_sub (entries : List SemanticEntry) (vals : List String) :
    ∀ (st : ExactState), ∀ c ∈ st.seen,
      c ∈ (vals.foldl (fun st v => entries.foldl (fun st e => exactStep st v e) st) st).seen := by
  induction vals with
  | nil => exact fun st c hc => hc
  | cons b bs ih =>
    intro st c hc
    simp only [List.foldl_cons]
    exact ih _ c (exactFoldInner_seen_sub b entries st c hc)

theorem exactStep_canonical_seen (st : ExactState) (v : String) (e : SemanticEntry)
    (h : v ∈ e.aliases) : e.canonical_name ∈ (exactStep st v e).seen := by
  by_cases h2 : e.canonical_name ∈ st.seen
  · simp only [exactStep, if_pos h, if_pos h2]; exact h2
  · by_cases h3 : e.allowed = true
    · simp only [exactStep, if_pos h, if_neg h2, if_pos h3]
      exact List.mem_append_right _ (List.mem_singleton.mpr rfl)
    · simp only [exactStep, if_pos h, if_neg h2, if_neg h3]
      exact List.mem_append_right _ (List.mem_singleton.mpr rfl)

theorem exactFoldInner_canonical (v : String) (entries : List SemanticEntry) :
    ∀ (st : ExactState), ∀ e ∈ entries, v ∈ e.aliases →
      e.canonical_name ∈ (entries.foldl (fun st e => exactStep st v e) st).seen := by
  induction entries with
  | nil => intro st e he; exact absurd he (List.not_mem_nil e)
  | cons a as ih =>
    intro st e he hv
    simp only [List.foldl_cons]
    rcases List.mem_cons.mp he with rfl | he2
    · exact exactFoldInner_seen_sub v as _ _ (exactStep_canonical_seen st v e hv)
    · exact ih _ e he2 hv

theorem exactFold_canonical (entries : List SemanticEntry) (vals : List String) :
    ∀ (st : ExactState), ∀ v ∈ vals, ∀ e ∈ entries, v ∈ e.aliases →
      e.canonical_name ∈
        (vals.foldl (fun st v => entries.foldl (fun st e => exactStep st v e) st) st).seen := by
  induction vals with
  | nil => intro st v hv; exact absurd hv (List.not_mem_nil v)
  | cons b bs ih =>
    intro st v hv e he hal
    simp only [List.foldl_cons]
    rcases List.mem_cons.mp hv with rfl | hv2
    · exact exactFold_seen_sub entries bs _ _ (exactFoldInner_canonical v entries st e he hal)
    · exact ih _ v hv2 e he hal

theorem exactStep_seen_payload (st : ExactState) (v : String) (e : SemanticEntry)
    (h : ∀ c ∈ st.seen, ∃ q ∈ st.hits ++ st.blocked,
      q.canonical_name = c ∧ q.source = "exact") :
    ∀ c ∈ (exactStep st v e).seen,
      ∃ q ∈ (exactStep st v e).hits ++ (exactStep st v e).blocked,
        q.canonical_name = c ∧ q.source = "exact" := by
  intro c hc
  by_cases h1 : v ∈ e.aliases
  · by_cases h2 : e.canonical_name ∈ st.seen
    · simp only [exactStep, if_pos h1, if_pos h2] at hc ⊢
      exact h c hc
    · by_cases h3 : e.allowed = true
      · simp only [exactStep, if_pos h1, if_neg h2, if_pos h3] at hc ⊢
        rcases List.mem_append.mp hc with hc | hc
        · rcases h c hc with ⟨q, hq, hqn, hqs⟩
          rcases List.mem_append.mp hq with hq | hq
          · exact ⟨q, List.mem_append_left _ (List.mem_append_left _ hq), hqn, hqs⟩
          · exact ⟨q, List.mem_append_right _ hq, hqn, hqs⟩
        · exact ⟨toMatchPayload e "exact",
            List.mem_append_left _ (List.mem_append_right _ (List.mem_singleton.mpr rfl)),
            (List.mem_singleton.mp hc).symm, rfl⟩
      · simp only [exactStep, if_pos h1, if_neg h2, if_neg h3] at hc ⊢
        rcases List.mem_append.mp hc with hc | hc
        · rcases h c hc with ⟨q, hq, hqn, hqs⟩
          rcases List.mem_append.mp hq with hq | hq
          · exact ⟨q, List.mem_append_left _ hq, hqn, hqs⟩
          · exact ⟨q, List.mem_append_right _ (List.mem_append_left _ hq), hqn, hqs⟩
        · exact ⟨toMatchPayload e "exact",
            List.mem_append_right _ (List.mem_append_right _ (List.mem_singleton.mpr rfl)),
            (List.mem_singleton.mp hc).symm, rfl⟩
  · simp only [exactStep, if_neg h1] at hc ⊢
    exact h c hc

theorem exactFold_seen_payload (entries : List SemanticEntry) (vals : List String) :
    ∀ c ∈ (vals.foldl (fun st v => entries.foldl (fun st e => exactStep st v e) st)
        ({} : ExactState)).seen,
      ∃ q ∈ (vals.foldl (fun st v => entries.foldl (fun st e => exactStep st v e) st)
            ({} : ExactState)).hits ++
          (vals.foldl (fun st v => entries.foldl (fun st e => exactStep st v e) st)
            ({} : ExactState)).blocked,
        q.canonical_name = c ∧ q.source = "exact" := by
  refine foldl_invariant _
    (fun st : ExactState => ∀ c ∈ st.seen, ∃ q : MatchDict, q ∈ st.hits ++ st.blocked ∧
      q.canonical_name = c ∧ q.source = "exact") ?_ vals {} ?_
  · intro acc v hacc
    exact foldl_invariant _ _ (fun acc e hacc => exactStep_seen_payload acc v e hacc)
      entries acc hacc
  · intro c hc
    exact absurd hc (List.not_mem_nil c)

/-- C4 (amended): the exact path of the TokenMatcher normalizes every
non-blank string of the features' `tokens`, `metrics` and `dimensions`
arrays (NOT the `filters` array, contrary to the claim), looks each up
in every entry's alias list, and emits the entry's match payload with
source `exact`, partitioned into `matches` (allowed entries) and
`blocked` (`allowed = false` entries); conversely every entry one of
whose aliases equals a collected normalized value is represented in
`matches ++ blocked` by a payload with its canonical name (possibly the
payload of an earlier entry sharing that canonical name, since the loop
deduplicates by canonical name). -/
theorem build_exact_matches_characterized (entries : List SemanticEntry)
    (extracted_features : Features) :
    (∀ p ∈ (buildExactMatches entries extracted_features).1,
      ∃ v ∈ exactValues extracted_features, ∃ e ∈ entries,
        v ∈ e.aliases ∧ e.allowed = true ∧ p = toMatchPayload e "exact") ∧
    (∀ p ∈ (buildExactMatches entries extracted_features).2,
      ∃ v ∈ exactValues extracted_features, ∃ e ∈ entries,
        v ∈ e.aliases ∧ e.allowed = false ∧ p = toMatchPayload e "exact") ∧
    (∀ e ∈ entries, ∀ v ∈ exactValues extracted_features, v ∈ e.aliases →
      ∃ q ∈ (buildExactMatches entries extracted_features).1 ++
          (buildExactMatches entries extracted_features).2,
        q.canonical_name = e.canonical_name ∧ q.source = "exact") := by
  refine ⟨?_, ?_, ?_⟩
  · intro p hp
    simp only [buildExactMatches] at hp
    rcases (exactFold_cases entries (exactValues extracted_features) {} p).1 hp with h | h
    · exact absurd h (List.not_mem_nil p)
    · exact h
  · intro p hp
    simp only [buildExactMatches] at hp
    rcases (exactFold_cases entries (exactValues extracted_features) {} p).2 hp with h | h
    · exact absurd h (List.not_mem_nil p)
    · exact h
  · intro e he v hv hal
    simp only [buildExactMatches]
    exact exactFold_seen_payload entries (exactValues extracted_features) e.canonical_name
      (exactFold_canonical entries (exactValues extracted_features) {} v hv e he hal)

/-- C4 counterexample: a features dict whose only mention of the alias
地區 sits in the `filters` array produces no exact match at all —
`_build_exact_matches` collects values only from `tokens`, `metrics` and
`dimensions`, not from `filters` as the claim states; the spec-worded
matcher that also scans `filters` does emit the payload. -/
theorem build_exact_matches_counterexample :
    buildExactMatches [fxRegionEntry] fxFilterOnlyFeatures = ([], []) ∧
    buildExactMatchesClaimed [fxRegionEntry] fxFilterOnlyFeatures =
      ([toMatchPayload fxRegionEntry "exact"], []) := by decide

/-- C4 witness: the amended theorem applied at the one-entry index and a
features dict carrying the alias 地區 in `tokens`, yielding a payload
with canonical name `branch.region` and source `exact`. -/
theorem build_exact_matches_characterized_witness :
    "地區" ∈ exactValues fxTokenFeatures ∧
    (∃ q ∈ (buildExactMatches [fxRegionEntry] fxTokenFeatures).1 ++
        (buildExactMatches [fxRegionEntry] fxTokenFeatures).2,
      q.canonical_name = fxRegionEntry.canonical_name ∧ q.source = "exact") :=
  ⟨by decide,
    (build_exact_matches_characterized [fxRegionEntry] fxTokenFeatures).2.2
      fxRegionEntry (by decide) "地區" (by decide) (by decide)⟩
